import Mathlib

/-!
# Cookiejar transaction family: handler and client

A shallow embedding of `goprocessor/handler.go` (the transaction handler) and of
the transport, polling and addressing parts of `goclient/client.go`, with the
properties of the handler's state transitions and of the client proved over it.

Conventions of the embedding:

* a Go `string` / `[]byte` is a `List Char` (`GoString`); the characters that the
  code inspects (`,`, `-`, `+`, the decimal digits) are ASCII;
* a Go `int` is an `Int` kept in the 64-bit two-complement range by `wrapInt`
  wherever the source does arithmetic;
* the SDK `processor.Context` is an explicit state record (`Context`) that also
  keeps the history of the calls made on it;
* a run-time panic is a result of its own (`Result.panicked`).
-/

namespace Cookiejar

/-- Go strings and byte slices. -/
abbrev GoString := List Char

/-! ## Go `int` and `strconv` -/

/-- Two-complement wrap-around of a 64-bit Go `int`. -/
def wrapInt (x : Int) : Int := (x + 2 ^ 63) % 2 ^ 64 - 2 ^ 63

/-- Largest Go `int`. -/
def maxInt : Int := 2 ^ 63 - 1

/-- Smallest Go `int`. -/
def minInt : Int := -(2 ^ 63)

/-- The two causes of a `strconv.NumError`. -/
inductive NumErr where
  | ErrSyntax
  | ErrRange
  deriving DecidableEq, Repr

/-- Loop of `strconv.formatBits` for base 10: the digits of `u`, most significant first,
pushed in front of `acc`. The first argument bounds the number of iterations. -/
def formatLoop : Nat → Nat → GoString → GoString
  | 0, _, acc => acc
  | fuel + 1, u, acc =>
    if u < 10 then Nat.digitChar u :: acc
    else formatLoop fuel (u / 10) (Nat.digitChar (u % 10) :: acc)

/-- Decimal text of an unsigned number (`strconv.formatBits`, base 10). -/
def formatBits (u : Nat) : GoString := formatLoop (u + 1) u []

/-- Go `strconv.Itoa`: decimal text of an `int`, with a leading `-` when negative. -/
def Itoa (i : Int) : GoString :=
  if i < 0 then '-' :: formatBits (-i).toNat else formatBits i.toNat

/-- Bound above which `n * 10` no longer fits 64 bits (`cutoff` of `strconv.ParseUint`). -/
def cutoff64 : Nat := 2 ^ 64 / 10 + 1

/-- Largest unsigned 64-bit value. -/
def maxUint64 : Nat := 2 ^ 64 - 1

/-- The digit loop of `strconv.ParseUint` for base 10 and bit size 64. It stops at the
first byte that is no decimal digit (value 0, `ErrSyntax`) and at the first overflow
(value `maxUint64`, `ErrRange`). -/
def parseUintLoop : GoString → Nat → Nat × Option NumErr
  | [], n => (n, none)
  | c :: cs, n =>
    if 48 ≤ c.toNat ∧ c.toNat ≤ 57 then
      if cutoff64 ≤ n then (maxUint64, some NumErr.ErrRange)
      else if maxUint64 < n * 10 + (c.toNat - 48) then (maxUint64, some NumErr.ErrRange)
      else parseUintLoop cs (n * 10 + (c.toNat - 48))
    else (0, some NumErr.ErrSyntax)

/-- Go `strconv.ParseUint(s, 10, 64)`. -/
def ParseUint (s : GoString) : Nat × Option NumErr :=
  match s with
  | [] => (0, some NumErr.ErrSyntax)
  | _ => parseUintLoop s 0

/-- Go `strconv.ParseInt(s, 10, 0)` on a 64-bit platform. -/
def ParseInt (s : GoString) : Int × Option NumErr :=
  match s with
  | [] => (0, some NumErr.ErrSyntax)
  | c :: cs =>
    let neg := decide (c = '-')
    let body := if c = '+' ∨ c = '-' then cs else s
    match ParseUint body with
    | (_, some NumErr.ErrSyntax) => (0, some NumErr.ErrSyntax)
    | (un, _) =>
      if !neg ∧ 2 ^ 63 ≤ un then (maxInt, some NumErr.ErrRange)
      else if neg ∧ 2 ^ 63 < un then (minInt, some NumErr.ErrRange)
      else (if neg then -(un : Int) else (un : Int), none)

/-- Go `strconv.Atoi`. Its fast path for short inputs computes the same value and
error as `ParseInt`, so the model goes through `ParseInt` for every input. -/
def Atoi (s : GoString) : Int × Option NumErr := ParseInt s

/-- Go `strings.Split(s, ",")`: the fields between commas; never an empty list. -/
def splitComma : GoString → List GoString
  | [] => [[]]
  | c :: cs =>
    if c = ',' then [] :: splitComma cs
    else
      match splitComma cs with
      | [] => [[c]]
      | f :: fs => (c :: f) :: fs

/-! ## Errors and results of the handler -/

/-- An error value of another package that the handler formats with `%v`. -/
inductive Cause where
  /-- The `*strconv.NumError` of `Atoi` on the text `num`. -/
  | numError (num : GoString) (err : NumErr)
  /-- An error returned by a call on the `Context`, known by its text. -/
  | contextError (text : GoString)
  deriving DecidableEq, Repr

/-- The `Msg` field of a processor error: a fixed text, or the result of
`fmt.Sprintf(format, v)` for an error value `v`. -/
inductive Msg where
  | text (s : GoString)
  | sprintf (format : GoString) (v : Cause)
  deriving DecidableEq, Repr

/-- Error values that the handler returns to the SDK. `InvalidTransactionError` marks
the transaction invalid; `InternalError` reports an internal fault of the processor;
`fromContext` is an error of a `Context` call handed back unchanged. -/
inductive Error where
  | InvalidTransactionError (Msg : Msg)
  | InternalError (Msg : Msg)
  | fromContext (text : GoString)
  deriving DecidableEq, Repr

/-- Outcome of a Go call that may panic: the returned `error` (`none` is `nil`),
or the run-time panic that ended it. -/
inductive Result where
  | returned (err : Option Error)
  | panicked (reason : GoString)
  deriving DecidableEq, Repr

/-! ## The SDK `processor.Context` -/

/-- An event added through `Context.AddEvent` (its data argument is always `nil`). -/
structure Event where
  eventType : GoString
  attributes : List (GoString × GoString)
  deriving DecidableEq, Repr

/-- A Go `map[string][]byte` with distinct keys. -/
abbrev StateMap := List (GoString × GoString)

/-- Go map assignment `m[k] = v`. -/
def StateMap.assign (m : StateMap) (k v : GoString) : StateMap :=
  (k, v) :: m.filter (fun p => decide (p.1 ≠ k))

/-- A call made on the `Context`, with its arguments. -/
inductive Call where
  | GetState (addresses : List GoString)
  | SetState (pairs : StateMap)
  | AddEvent (event : Event)
  deriving DecidableEq, Repr

/-- The state-access capability handed to `Apply`: the replicated key-value state, the
events added so far, the history of calls (oldest first), and how the validator answers:
`getFault`, `setFault` and `eventFault` make the respective call return an error,
`setDropped` makes `SetState` answer with an empty address list and write nothing. -/
structure Context where
  state : GoString → Option GoString
  events : List Event
  calls : List Call
  getFault : Option GoString
  setFault : Option GoString
  setDropped : Bool
  eventFault : Option GoString

/-- The validator answers every call of the handler regularly. -/
def Context.noFaults (ctx : Context) : Prop :=
  ctx.getFault = none ∧ ctx.setFault = none ∧ ctx.setDropped = false ∧ ctx.eventFault = none

instance (ctx : Context) : Decidable ctx.noFaults := by
  unfold Context.noFaults; infer_instance

/-- SDK `Context.GetState`: the entries at the requested addresses whose data is not
zero-length. The validator answers an unset address with zero-length data, and the SDK
keeps an entry of the answer only if `len(entry.GetData()) != 0`. -/
def Context.GetState (ctx : Context) (addresses : List GoString) :
    Except GoString StateMap × Context :=
  let ctx1 := { ctx with calls := ctx.calls ++ [Call.GetState addresses] }
  match ctx.getFault with
  | some e => (Except.error e, ctx1)
  | none =>
    (Except.ok (addresses.filterMap fun a =>
      match ctx.state a with
      | some v => if v.length ≠ 0 then some (a, v) else none
      | none => none), ctx1)

/-- SDK `Context.SetState`: writes every pair and answers with the addresses written. -/
def Context.SetState (ctx : Context) (pairs : StateMap) :
    Except GoString (List GoString) × Context :=
  let ctx1 := { ctx with calls := ctx.calls ++ [Call.SetState pairs] }
  match ctx.setFault with
  | some e => (Except.error e, ctx1)
  | none =>
    if ctx.setDropped then (Except.ok [], ctx1)
    else
      (Except.ok (pairs.map Prod.fst),
        { ctx1 with state := fun a =>
            match pairs.lookup a with
            | some v => some v
            | none => ctx.state a })

/-- SDK `Context.AddEvent`. -/
def Context.AddEvent (ctx : Context) (event : Event) : Option GoString × Context :=
  let ctx1 := { ctx with calls := ctx.calls ++ [Call.AddEvent event] }
  match ctx.eventFault with
  | some e => (some e, ctx1)
  | none => (none, { ctx1 with events := ctx.events ++ [event] })

/-! ## `goprocessor/handler.go` -/

/-- The part of `processor_pb2.TpProcessRequest` that `Apply` reads. -/
structure TpProcessRequest where
  signerPublicKey : GoString
  payload : GoString
  deriving DecidableEq, Repr

/-- The constant `familyName`. -/
def familyName : GoString := "cookiejar".toList

/-- The handler of the cookiejar transaction family; `nspace` is its field `namespace`. -/
structure CookiejarHandler where
  nspace : GoString
  deriving DecidableEq, Repr

section Handler

/- The function `Hexdigest`: lower-case hexadecimal SHA-512 digest of a string. The
digest itself is a primitive of `crypto/sha512` and stays a parameter. -/
variable (Hexdigest : GoString → GoString)

/-- `NewCookiejarHandler`. -/
def NewCookiejarHandler : CookiejarHandler :=
  { nspace := (Hexdigest familyName).take 6 }

/-- `CookiejarHandler.getAddress`: the namespace prefix followed by the first 64
characters of the digest of `name`. -/
def CookiejarHandler.getAddress (h : CookiejarHandler) (name : GoString) : GoString :=
  h.nspace ++ (Hexdigest name).take 64

/-- `CookiejarHandler.bake`. -/
def CookiejarHandler.bake (h : CookiejarHandler) (ctx : Context) (amount : Int)
    (fromKey : GoString) : Option Error × Context :=
  let address := h.getAddress Hexdigest fromKey
  match ctx.GetState [address] with
  | (Except.error e, ctx1) => (some (Error.fromContext e), ctx1)
  | (Except.ok state, ctx1) =>
    let cookies : Int :=
      match state.lookup address with
      | some c => (Atoi c).1
      | none => 0
    let state1 := StateMap.assign state address (Itoa (wrapInt (cookies + amount)))
    match ctx1.SetState state1 with
    | (Except.error e, ctx2) => (some (Error.fromContext e), ctx2)
    | (Except.ok _, ctx2) =>
      match ctx2.AddEvent
          { eventType := "cookiejar/bake".toList,
            attributes := [("cookies-baked".toList, Itoa amount)] } with
      | (some e, ctx3) => (some (Error.fromContext e), ctx3)
      | (none, ctx3) => (none, ctx3)

/-- `CookiejarHandler.eat`. -/
def CookiejarHandler.eat (h : CookiejarHandler) (ctx : Context) (amount : Int)
    (fromKey : GoString) : Option Error × Context :=
  let address := h.getAddress Hexdigest fromKey
  match ctx.GetState [address] with
  | (Except.error e, ctx1) => (some (Error.fromContext e), ctx1)
  | (Except.ok state, ctx1) =>
    match state.lookup address with
    | none => (some (Error.InternalError (Msg.text "Invalid cookie jar".toList)), ctx1)
    | some c =>
      let cookies : Int := (Atoi c).1
      if cookies < amount then
        (some (Error.InvalidTransactionError
          (Msg.text "Not enough of cookies in the jar".toList)), ctx1)
      else
        let state1 := StateMap.assign state address (Itoa (wrapInt (cookies - amount)))
        match ctx1.SetState state1 with
        | (Except.error e, ctx2) =>
          (some (Error.InternalError
            (Msg.sprintf "Couldn't update state: %v".toList (Cause.contextError e))), ctx2)
        | (Except.ok addresses, ctx2) =>
          if addresses.length = 0 then
            (some (Error.InternalError (Msg.text "No addresses in set response".toList)), ctx2)
          else
            match ctx2.AddEvent
                { eventType := "cookiejar/eat".toList,
                  attributes := [("cookies-ate".toList, Itoa amount)] } with
            | (some e, ctx3) =>
              (some (Error.InternalError
                (Msg.sprintf "Couldn't publish event: %v".toList (Cause.contextError e))), ctx3)
            | (none, ctx3) => (none, ctx3)

/-- `CookiejarHandler.empty`. -/
def CookiejarHandler.empty (h : CookiejarHandler) (ctx : Context)
    (fromKey : GoString) : Option Error × Context :=
  let address := h.getAddress Hexdigest fromKey
  match ctx.GetState [address] with
  | (Except.error e, ctx1) => (some (Error.fromContext e), ctx1)
  | (Except.ok state, ctx1) =>
    match state.lookup address with
    | none => (some (Error.InternalError (Msg.text "Invalid cookie jar".toList)), ctx1)
    | some _ =>
      let state1 := StateMap.assign state address (Itoa 0)
      match ctx1.SetState state1 with
      | (Except.error e, ctx2) => (some (Error.fromContext e), ctx2)
      | (Except.ok _, ctx2) => (none, ctx2)

/-- `CookiejarHandler.Apply`. The payload is split at commas; field 0 is the action and
field 1 the amount. Reading field 1 of a one-field list is an index out of range. -/
def CookiejarHandler.Apply (h : CookiejarHandler) (r : TpProcessRequest) (ctx : Context) :
    Result × Context :=
  let fromKey := r.signerPublicKey
  match splitComma r.payload with
  | [] => (Result.panicked "index out of range [0] with length 0".toList, ctx)
  | [_] => (Result.panicked "index out of range [1] with length 1".toList, ctx)
  | action :: field1 :: _ =>
    match Atoi field1 with
    | (_, some err) =>
      (Result.returned (some (Error.InternalError
        (Msg.sprintf "Couldn't parse amount : %v".toList (Cause.numError field1 err)))), ctx)
    | (amount, none) =>
      if action = "bake".toList then
        let out := h.bake Hexdigest ctx amount fromKey
        (Result.returned out.1, out.2)
      else if action = "eat".toList then
        let out := h.eat Hexdigest ctx amount fromKey
        (Result.returned out.1, out.2)
      else if action = "clear".toList then
        let out := h.empty Hexdigest ctx fromKey
        (Result.returned out.1, out.2)
      else
        (Result.returned (some (Error.InvalidTransactionError
          (Msg.text ("Invalid Action: '".toList ++ action ++ "'".toList)))), ctx)

end Handler

/-! ## `goclient/client.go`: polling for the status of a batch

The REST gateway is a script of replies: each request of the client takes the next
reply, and a request made when none is left is never answered. The body bytes of a
reply are represented by what `yaml.Unmarshal` makes of them, as far as the client
looks into it. -/

/-- A value stored in a decoded response: a string, or anything else. -/
inductive Field where
  | str (s : GoString)
  | other
  deriving DecidableEq, Repr

/-- One decoded element of the `data` list: a `map[interface{}]interface{}`. -/
abbrev DataMap := List (GoString × Field)

/-- An item of the `data` list: a mapping, or anything else. -/
inductive Item where
  | mapping (m : DataMap)
  | other
  deriving DecidableEq, Repr

/-- What `responseMap["data"]` holds: nothing, a list, or anything else. -/
inductive DataEntry where
  | absent
  | items (xs : List Item)
  | other
  deriving DecidableEq, Repr

/-- The bytes of a response body, by the result of `yaml.Unmarshal` into a map. -/
inductive Body where
  | malformed (err : GoString)
  | document (data : DataEntry)
  deriving DecidableEq, Repr

/-- What `http.Get` / `http.Post` come back with: a transport error, or a response with
its status code, status line and body (`Except.error` when reading the body fails). -/
inductive Reply where
  | noConnection (err : GoString)
  | response (StatusCode : Nat) (Status : GoString) (body : Except GoString Body)

/-- The gateway: the replies it is going to give, in order. -/
abbrev Gateway := List Reply

/-- The errors that the client builds with `fmt.Errorf`, and the decoding error that
`getData` hands back unchanged. -/
inductive ClientError where
  /-- `"Failed to connect to REST API: %v"`. -/
  | failedToConnect (err : GoString)
  /-- `"Not found"`. -/
  | notFound
  /-- `"Error %d: %s"` with the status code and status line. -/
  | httpStatus (code : Nat) (status : GoString)
  /-- `"Error reading response: %v"`. -/
  | readingResponse (err : GoString)
  /-- The error of `yaml.Unmarshal`. -/
  | unmarshal (err : GoString)
  /-- `"timeout"`. -/
  | timeout
  deriving DecidableEq, Repr

/-- Outcome of a client call: a value, a returned error, a run-time panic, or no
outcome at all because the gateway never answers. -/
inductive Outcome (α : Type) where
  | value (a : α)
  | failed (err : ClientError)
  | panicked (reason : GoString)
  | blocked
  deriving DecidableEq, Repr

/-- The client; of its signer only the public key (as hex) is kept. -/
structure CookiejarClient where
  url : GoString
  publicKey : GoString
  deriving DecidableEq, Repr

/-- The text of the nil-dereference panic of the Go run time. -/
def nilDereference : GoString :=
  "invalid memory address or nil pointer dereference".toList

/-- `CookiejarClient.sendRequest`. The request is a POST when `data` is not empty and a
GET otherwise; the scripted gateway answers both alike. On status 404 the code calls
`err.Error()` on the `err` that was just found to be `nil`. -/
def CookiejarClient.sendRequest (_c : CookiejarClient) (_suffix _contentType _data : GoString)
    (gw : Gateway) : Outcome Body × Gateway :=
  match gw with
  | [] => (Outcome.blocked, [])
  | Reply.noConnection err :: rest => (Outcome.failed (ClientError.failedToConnect err), rest)
  | Reply.response StatusCode Status body :: rest =>
    if StatusCode = 404 then (Outcome.panicked nilDereference, rest)
    else if 400 ≤ StatusCode then (Outcome.failed (ClientError.httpStatus StatusCode Status), rest)
    else
      match body with
      | Except.error err => (Outcome.failed (ClientError.readingResponse err), rest)
      | Except.ok b => (Outcome.value b, rest)

/-- `CookiejarClient.getData`: element `i` of the `data` list of a response, as a map.
Each of the two type assertions and the indexing panics when it does not apply. -/
def CookiejarClient.getData (_c : CookiejarClient) (response : Body) (i : Nat) :
    Outcome DataMap :=
  match response with
  | Body.malformed err => Outcome.failed (ClientError.unmarshal err)
  | Body.document DataEntry.absent =>
    Outcome.panicked "interface conversion: interface {} is nil, not []interface {}".toList
  | Body.document DataEntry.other =>
    Outcome.panicked "interface conversion: interface {} is not []interface {}".toList
  | Body.document (DataEntry.items xs) =>
    match xs.get? i with
    | none => Outcome.panicked "index out of range".toList
    | some Item.other =>
      Outcome.panicked
        "interface conversion: interface {} is not map[interface {}]interface {}".toList
    | some (Item.mapping m) => Outcome.value m

/-- The expression `data["status"].(string)`. -/
def statusOf (data : DataMap) : Outcome GoString :=
  match data.lookup "status".toList with
  | some (Field.str s) => Outcome.value s
  | _ => Outcome.panicked "interface conversion: interface {} is not string".toList

/-- `CookiejarClient.getStatus`. -/
def CookiejarClient.getStatus (c : CookiejarClient) (batchID : GoString) (wait : Nat)
    (gw : Gateway) : Outcome GoString × Gateway :=
  let suffix := "batch_statuses?id=".toList ++ batchID ++ "&wait=".toList ++ formatBits wait
  match c.sendRequest suffix [] [] gw with
  | (Outcome.failed err, gw1) => (Outcome.failed err, gw1)
  | (Outcome.panicked p, gw1) => (Outcome.panicked p, gw1)
  | (Outcome.blocked, gw1) => (Outcome.blocked, gw1)
  | (Outcome.value response, gw1) =>
    match c.getData response 0 with
    | Outcome.failed (ClientError.unmarshal err) =>
      (Outcome.failed (ClientError.readingResponse err), gw1)
    | Outcome.failed err => (Outcome.failed err, gw1)
    | Outcome.panicked p => (Outcome.panicked p, gw1)
    | Outcome.blocked => (Outcome.blocked, gw1)
    | Outcome.value data => (statusOf data, gw1)

/-- The loop `for timeout > 0 && status == "PENDING"` of the goroutine in `waitForStatus`.
Every iteration takes one reply of the gateway, so the first argument, the number of
replies left, bounds the iterations; it ends with the last status read. -/
def pollLoop (c : CookiejarClient) (batchID : GoString) (timeout : Nat) :
    Nat → GoString → Gateway → Outcome GoString × Gateway
  | 0, status, gw =>
    if 0 < timeout ∧ status = "PENDING".toList then (Outcome.blocked, gw)
    else (Outcome.value status, gw)
  | fuel + 1, status, gw =>
    if 0 < timeout ∧ status = "PENDING".toList then
      match c.getStatus batchID timeout gw with
      | (Outcome.value status1, gw1) => pollLoop c batchID timeout fuel status1 gw1
      | (out, gw1) => (out, gw1)
    else (Outcome.value status, gw)

/-- `CookiejarClient.waitForStatus`. The value is the map `res` that the code renders
with `fmt.Sprintf("%#v", res)`. The `select` takes whatever the goroutine sends; when the
goroutine waits for a reply that never comes, it takes the timer and the call fails with
`"timeout"`. When `timeout` is 0 the timer is ready before any reply, so the call fails
with `"timeout"` as well, while the goroutine has sent its first request, which takes one
reply of the gateway. -/
def CookiejarClient.waitForStatus (c : CookiejarClient) (batchID : GoString) (timeout : Nat)
    (gw : Gateway) : Outcome DataMap × Gateway :=
  let suffix := "batch_statuses?id=".toList ++ batchID ++ "&wait=".toList ++ formatBits timeout
  if timeout = 0 then
    (Outcome.failed ClientError.timeout,
      (c.sendRequest suffix "application/octet-stream".toList [] gw).2)
  else
    match c.sendRequest suffix "application/octet-stream".toList [] gw with
    | (Outcome.failed err, gw1) => (Outcome.failed err, gw1)
    | (Outcome.panicked p, gw1) => (Outcome.panicked p, gw1)
    | (Outcome.blocked, gw1) => (Outcome.failed ClientError.timeout, gw1)
    | (Outcome.value b, gw1) =>
      match c.getData b 0 with
      | Outcome.failed err => (Outcome.failed err, gw1)
      | Outcome.panicked p => (Outcome.panicked p, gw1)
      | Outcome.blocked => (Outcome.failed ClientError.timeout, gw1)
      | Outcome.value res =>
        match statusOf res with
        | Outcome.value status =>
          match pollLoop c batchID timeout gw1.length status gw1 with
          | (Outcome.value _, gw2) => (Outcome.value res, gw2)
          | (Outcome.failed err, gw2) => (Outcome.failed err, gw2)
          | (Outcome.panicked p, gw2) => (Outcome.panicked p, gw2)
          | (Outcome.blocked, gw2) => (Outcome.failed ClientError.timeout, gw2)
        | Outcome.failed err => (Outcome.failed err, gw1)
        | Outcome.panicked p => (Outcome.panicked p, gw1)
        | Outcome.blocked => (Outcome.failed ClientError.timeout, gw1)

/-- A 200 reply of `batch_statuses` whose first result has the given status. -/
def statusReply (batchID status : GoString) : Reply :=
  Reply.response 200 "200 OK".toList
    (Except.ok (Body.document (DataEntry.items
      [Item.mapping [("id".toList, Field.str batchID), ("status".toList, Field.str status)]])))

/-! ## `goclient/client.go`: the address and the transaction header -/

/-- The constant `familyName` of `goclient/client.go`. -/
def clientFamilyName : GoString := "cookiejar".toList

/-- The fields of `transaction_pb2.TransactionHeader`, as `wrapAndSend` fills them. -/
structure TransactionHeader where
  SignerPublicKey : GoString
  FamilyName : GoString
  FamilyVersion : GoString
  Inputs : List GoString
  Outputs : List GoString
  PayloadSha512 : GoString
  BatcherPublicKey : GoString
  Nonce : GoString
  deriving DecidableEq, Repr

section Client

/- The client's function `hexdigest`: like `Hexdigest` of the handler, the lower-case
hexadecimal text of the SHA-512 digest, which stays a parameter. -/
variable (hexdigest : GoString → GoString)

/-- `CookiejarClient.getPrefix`: the first 6 characters of the digest of the family name. -/
def CookiejarClient.getPrefix (_c : CookiejarClient) : GoString :=
  (hexdigest clientFamilyName).take 6

/-- `CookiejarClient.getAddress`: the prefix followed by the first 64 characters of the
digest of the signer's public key (as hex). -/
def CookiejarClient.getAddress (c : CookiejarClient) : GoString :=
  c.getPrefix hexdigest ++ (hexdigest c.publicKey).take 64

/-- The value `rawTransactionsHeader` built in `CookiejarClient.wrapAndSend`; `nonce` is
the result of `rand.Int()`. -/
def CookiejarClient.rawTransactionsHeader (c : CookiejarClient) (action : GoString)
    (amount nonce : Int) : TransactionHeader :=
  let payload := action ++ ',' :: Itoa amount
  let pubKey := c.publicKey
  let addressList := [c.getAddress hexdigest]
  { SignerPublicKey := pubKey,
    FamilyName := clientFamilyName,
    FamilyVersion := "1.0".toList,
    Inputs := addressList,
    Outputs := addressList,
    PayloadSha512 := hexdigest payload,
    BatcherPublicKey := pubKey,
    Nonce := Itoa nonce }

end Client

/-! ## Vocabulary of the statements -/

/-- The count that `bake` starts from: the parsed entry, or 0 without an entry. -/
def priorCount (ctx : Context) (address : GoString) : Int :=
  match ctx.state address with
  | some c => (Atoi c).1
  | none => 0

/-- The event that `bake` adds. -/
def bakeEvent (amount : Int) : Event :=
  { eventType := "cookiejar/bake".toList, attributes := [("cookies-baked".toList, Itoa amount)] }

/-- The event that `eat` adds. -/
def eatEvent (amount : Int) : Event :=
  { eventType := "cookiejar/eat".toList, attributes := [("cookies-ate".toList, Itoa amount)] }

/-- A call that reads or writes state touches no address but `address`. -/
def Call.touchesOnly (address : GoString) : Call → Prop
  | Call.GetState addresses => addresses = [address]
  | Call.SetState pairs => pairs.map Prod.fst = [address]
  | Call.AddEvent _ => True

/-- The text `v` is the decimal encoding of a non-negative integer. -/
def IsCount (v : GoString) : Prop := ∃ n : Nat, v = Itoa (n : Int)

/-- The characters of a lower-case hexadecimal text. -/
def hexChars : GoString := "0123456789abcdef".toList

/-! ## Concrete inputs -/

/-- A stand-in for the SHA-512 digest at concrete inputs: 128 characters, the name
itself padded with zeros. -/
def demoDigest (name : GoString) : GoString :=
  (name ++ List.replicate 128 '0').take 128

/-- A stand-in digest whose text is hexadecimal: 128 characters, the hexadecimal
characters of the name padded with zeros. -/
def hexDemoDigest (name : GoString) : GoString :=
  (name.filter (fun ch => decide (ch ∈ hexChars)) ++ List.replicate 128 '0').take 128

/-- The handler registered by `main`, over the stand-in digest. -/
def demoHandler : CookiejarHandler := NewCookiejarHandler demoDigest

/-- A context with no state entry, no event, no call made and no fault. -/
def freshContext : Context :=
  { state := fun _ => none, events := [], calls := [],
    getFault := none, setFault := none, setDropped := false, eventFault := none }

/-- A signer public key used at concrete inputs. -/
def demoKey : GoString := "02ab".toList

/-- A context without fault whose only state entry is `value`, at the address that the
handler derives from `demoKey`. -/
def jarContext (value : GoString) : Context :=
  { state := fun a =>
      if a = (NewCookiejarHandler demoDigest).getAddress demoDigest demoKey then some value
      else none,
    events := [], calls := [],
    getFault := none, setFault := none, setDropped := false, eventFault := none }

/-- A client used at concrete inputs. -/
def demoClient : CookiejarClient := { url := "rest-api:8008".toList, publicKey := demoKey }

/-! ## Decimal text and parsing -/

theorem digitChar_toNat (d : Nat) (h : d < 10) : (Nat.digitChar d).toNat = 48 + d := by
  interval_cases d <;> rfl

theorem formatLoop_append (fuel u : Nat) (acc : GoString) :
    formatLoop fuel u acc = formatLoop fuel u [] ++ acc := by
  induction fuel generalizing u acc with
  | zero => simp [formatLoop]
  | succ k ih =>
    simp only [formatLoop]
    split
    · simp
    · rw [ih (u / 10) (Nat.digitChar (u % 10) :: acc), ih (u / 10) [Nat.digitChar (u % 10)]]
      simp

theorem formatLoop_head (fuel u : Nat) (acc : GoString) :
    ∃ d rest, d < 10 ∧ formatLoop (fuel + 1) u acc = Nat.digitChar d :: rest := by
  induction fuel generalizing u acc with
  | zero =>
    simp only [formatLoop]
    split
    · exact ⟨u, acc, by assumption, rfl⟩
    · exact ⟨u % 10, acc, Nat.mod_lt _ (by decide), rfl⟩
  | succ k ih =>
    rw [formatLoop]
    split
    · exact ⟨u, acc, by assumption, rfl⟩
    · exact ih (u / 10) _

theorem parseUintLoop_append (xs ys : GoString) (n m : Nat)
    (h : parseUintLoop xs n = (m, none)) :
    parseUintLoop (xs ++ ys) n = parseUintLoop ys m := by
  induction xs generalizing n with
  | nil => simp [parseUintLoop] at h; simp [h]
  | cons c cs ih =>
    simp only [parseUintLoop, List.cons_append] at h ⊢
    split at h
    · split at h
      · simp at h
      · split at h
        · simp at h
        · rename_i h1 h2 h3
          rw [if_pos h1, if_neg h2, if_neg h3]
          exact ih _ h
    · simp at h

theorem parseUintLoop_formatLoop (fuel u : Nat) (hf : u < fuel) (hu : u ≤ maxUint64) :
    parseUintLoop (formatLoop fuel u []) 0 = (u, none) := by
  induction fuel generalizing u with
  | zero => omega
  | succ k ih =>
    rw [formatLoop]
    split
    · rename_i h10
      have hd := digitChar_toNat u h10
      simp only [parseUintLoop, hd]
      simp [cutoff64, maxUint64] at hu ⊢
      rw [if_pos (by omega), if_neg (by omega)]
    · rename_i h10
      rw [formatLoop_append]
      have hk : u / 10 < k := by omega
      have hm : u / 10 ≤ maxUint64 := by omega
      rw [parseUintLoop_append _ _ _ _ (ih (u / 10) hk hm)]
      have hd := digitChar_toNat (u % 10) (Nat.mod_lt _ (by decide))
      simp only [parseUintLoop, hd]
      simp [cutoff64, maxUint64] at hu ⊢
      rw [if_pos (by omega), if_neg (by omega), if_neg (by omega)]
      congr 1
      omega

theorem ParseUint_formatBits (u : Nat) (hu : u ≤ maxUint64) :
    ParseUint (formatBits u) = (u, none) := by
  obtain ⟨d, rest, _, hrest⟩ := formatLoop_head u u []
  have h := parseUintLoop_formatLoop (u + 1) u (by omega) hu
  unfold ParseUint formatBits
  rw [hrest] at h ⊢
  exact h

theorem Atoi_Itoa (i : Int) (hlo : minInt ≤ i) (hhi : i ≤ maxInt) : Atoi (Itoa i) = (i, none) := by
  simp only [minInt, maxInt] at hlo hhi
  unfold Atoi Itoa
  by_cases hneg : i < 0
  · rw [if_pos hneg]
    have hu : (-i).toNat ≤ maxUint64 := by unfold maxUint64; omega
    simp only [ParseInt]
    simp [ParseUint_formatBits _ hu]
    rw [if_neg (by omega), max_eq_left (by omega)]
    simp
  · rw [if_neg hneg]
    obtain ⟨d, rest, hd, hrest⟩ := formatLoop_head i.toNat i.toNat []
    have hu : i.toNat ≤ maxUint64 := by unfold maxUint64; omega
    have hp := ParseUint_formatBits _ hu
    unfold formatBits at hp ⊢
    rw [hrest] at hp ⊢
    have hc := digitChar_toNat d hd
    have h1 : Nat.digitChar d ≠ '+' := by intro h; rw [h] at hc; simp at hc; omega
    have h2 : Nat.digitChar d ≠ '-' := by intro h; rw [h] at hc; simp at hc; omega
    simp only [ParseInt]
    simp [h1, h2, hp]
    rw [if_neg (by omega), max_eq_left (by omega)]

theorem Itoa_ne_nil (i : Int) : Itoa i ≠ [] := by
  unfold Itoa formatBits
  split
  · simp
  · obtain ⟨d, rest, _, hrest⟩ := formatLoop_head i.toNat i.toNat []
    rw [hrest]
    simp

/-! ## The handler's calls and writes -/

section HandlerLemmas
variable (Hexdigest : GoString → GoString)

theorem wrapInt_of_range (x : Int) (hlo : minInt ≤ x) (hhi : x ≤ maxInt) : wrapInt x = x := by
  simp only [minInt, maxInt] at hlo hhi
  unfold wrapInt
  omega

theorem lookup_single (a k v : GoString) :
    List.lookup a [(k, v)] = if a = k then some v else none := by
  by_cases ha : a = k
  · subst ha; simp [List.lookup]
  · have hb : (a == k) = false := by simpa using ha
    simp [List.lookup, hb, ha]

theorem getState_single (ctx : Context) (a : GoString) (hg : ctx.getFault = none) :
    ctx.GetState [a] =
      (Except.ok (match ctx.state a with
        | some v => if v.length ≠ 0 then [(a, v)] else []
        | none => []),
       { ctx with calls := ctx.calls ++ [Call.GetState [a]] }) := by
  rcases hs : ctx.state a with _ | v
  · simp [Context.GetState, hg, hs]
  · cases v <;> simp [Context.GetState, hg, hs]

theorem setState_single (ctx : Context) (k v : GoString) (hs : ctx.setFault = none)
    (hd : ctx.setDropped = false) :
    ctx.SetState [(k, v)] =
      (Except.ok [k],
       { ctx with
         calls := ctx.calls ++ [Call.SetState [(k, v)]],
         state := fun a => if a = k then some v else ctx.state a }) := by
  simp only [Context.SetState, hs, hd]
  simp only [List.map, Bool.false_eq_true, if_false, Prod.mk.injEq, true_and]
  congr 1
  funext a
  by_cases ha : a = k <;> simp [lookup_single, ha]

theorem Atoi_nil : Atoi [] = (0, some NumErr.ErrSyntax) := rfl

theorem bake_run (h : CookiejarHandler) (ctx : Context) (amount : Int) (key : GoString)
    (hf : ctx.noFaults) :
    h.bake Hexdigest ctx amount key =
      (none,
        { ctx with
          state := fun a =>
            if a = h.getAddress Hexdigest key then
              some (Itoa (wrapInt (priorCount ctx (h.getAddress Hexdigest key) + amount)))
            else ctx.state a,
          events := ctx.events ++ [bakeEvent amount],
          calls := ctx.calls ++
            [Call.GetState [h.getAddress Hexdigest key],
             Call.SetState [(h.getAddress Hexdigest key,
               Itoa (wrapInt (priorCount ctx (h.getAddress Hexdigest key) + amount)))],
             Call.AddEvent (bakeEvent amount)] }) := by
  obtain ⟨h1, h2, h3, h4⟩ := hf
  rcases hs : ctx.state (h.getAddress Hexdigest key) with _ | v
  · simp [CookiejarHandler.bake, getState_single, setState_single, Context.AddEvent,
      StateMap.assign, h1, h2, h3, h4, hs, lookup_single, priorCount, bakeEvent]
  · cases v <;>
      simp [CookiejarHandler.bake, getState_single, setState_single, Context.AddEvent,
        StateMap.assign, h1, h2, h3, h4, hs, lookup_single, priorCount, bakeEvent, Atoi_nil]

theorem bake_effect (h : CookiejarHandler) (ctx : Context) (amount : Int) (key : GoString) :
    (∀ a, a ≠ h.getAddress Hexdigest key →
        (h.bake Hexdigest ctx amount key).2.state a = ctx.state a) ∧
    ((h.bake Hexdigest ctx amount key).2.state (h.getAddress Hexdigest key)
        = ctx.state (h.getAddress Hexdigest key) ∨
      (ctx.getFault = none ∧ ctx.setFault = none ∧ ctx.setDropped = false ∧
        (h.bake Hexdigest ctx amount key).2.state (h.getAddress Hexdigest key)
          = some (Itoa (wrapInt (priorCount ctx (h.getAddress Hexdigest key) + amount))))) ∧
    (∃ new, (h.bake Hexdigest ctx amount key).2.calls = ctx.calls ++ new ∧
      ∀ c ∈ new, c.touchesOnly (h.getAddress Hexdigest key)) := by
  rcases hs : ctx.state (h.getAddress Hexdigest key) with _ | v
  · cases h1 : ctx.getFault <;> cases h2 : ctx.setFault <;> cases h3 : ctx.setDropped <;>
      cases h4 : ctx.eventFault <;>
      simp [CookiejarHandler.bake, Context.GetState, Context.SetState, Context.AddEvent,
        StateMap.assign, h1, h2, h3, h4, hs, lookup_single, priorCount, Call.touchesOnly]
    all_goals (intro a ha; simp [ha])
  · cases v <;>
      cases h1 : ctx.getFault <;> cases h2 : ctx.setFault <;> cases h3 : ctx.setDropped <;>
      cases h4 : ctx.eventFault <;>
      simp [CookiejarHandler.bake, Context.GetState, Context.SetState, Context.AddEvent,
        StateMap.assign, h1, h2, h3, h4, hs, lookup_single, priorCount, Call.touchesOnly,
        Atoi_nil]
    all_goals (intro a ha; simp [ha])

theorem eat_effect (h : CookiejarHandler) (ctx : Context) (amount : Int) (key : GoString) :
    (∀ a, a ≠ h.getAddress Hexdigest key →
        (h.eat Hexdigest ctx amount key).2.state a = ctx.state a) ∧
    ((h.eat Hexdigest ctx amount key).2.state (h.getAddress Hexdigest key)
        = ctx.state (h.getAddress Hexdigest key) ∨
      ∃ c, ctx.state (h.getAddress Hexdigest key) = some c ∧ amount ≤ (Atoi c).1 ∧
        ctx.getFault = none ∧ ctx.setFault = none ∧ ctx.setDropped = false ∧
        (h.eat Hexdigest ctx amount key).2.state (h.getAddress Hexdigest key)
          = some (Itoa (wrapInt ((Atoi c).1 - amount)))) ∧
    (∃ new, (h.eat Hexdigest ctx amount key).2.calls = ctx.calls ++ new ∧
      ∀ c ∈ new, c.touchesOnly (h.getAddress Hexdigest key)) := by
  rcases hs : ctx.state (h.getAddress Hexdigest key) with _ | c
  · cases h1 : ctx.getFault <;>
      simp [CookiejarHandler.eat, Context.GetState, h1, hs, Call.touchesOnly]
  · rcases c with _ | ⟨ch, cs⟩
    · cases h1 : ctx.getFault <;>
        simp [CookiejarHandler.eat, Context.GetState, h1, hs, Call.touchesOnly]
    · by_cases hlt : (Atoi (ch :: cs)).1 < amount
      · cases h1 : ctx.getFault <;>
          simp [CookiejarHandler.eat, Context.GetState, h1, hs, hlt, Call.touchesOnly]
      · cases h1 : ctx.getFault <;> cases h2 : ctx.setFault <;> cases h3 : ctx.setDropped <;>
          cases h4 : ctx.eventFault <;>
          simp [CookiejarHandler.eat, Context.GetState, Context.SetState, Context.AddEvent,
            StateMap.assign, h1, h2, h3, h4, hs, hlt, lookup_single, Call.touchesOnly]
        all_goals exact ⟨fun a ha => by simp [ha], Or.inr (not_lt.mp hlt)⟩

theorem empty_effect (h : CookiejarHandler) (ctx : Context) (key : GoString) :
    (∀ a, a ≠ h.getAddress Hexdigest key →
        (h.empty Hexdigest ctx key).2.state a = ctx.state a) ∧
    ((h.empty Hexdigest ctx key).2.state (h.getAddress Hexdigest key)
        = ctx.state (h.getAddress Hexdigest key) ∨
      (h.empty Hexdigest ctx key).2.state (h.getAddress Hexdigest key) = some (Itoa 0)) ∧
    (∃ new, (h.empty Hexdigest ctx key).2.calls = ctx.calls ++ new ∧
      ∀ c ∈ new, c.touchesOnly (h.getAddress Hexdigest key)) := by
  rcases hs : ctx.state (h.getAddress Hexdigest key) with _ | v
  · cases h1 : ctx.getFault <;>
      simp [CookiejarHandler.empty, Context.GetState, h1, hs, Call.touchesOnly]
  · cases v <;>
      cases h1 : ctx.getFault <;> cases h2 : ctx.setFault <;> cases h3 : ctx.setDropped <;>
      simp [CookiejarHandler.empty, Context.GetState, Context.SetState,
        StateMap.assign, h1, h2, h3, hs, lookup_single, Call.touchesOnly]
    all_goals (intro a ha; simp [ha])

theorem apply_dispatch (h : CookiejarHandler) (r : TpProcessRequest) (ctx : Context)
    (action field : GoString) (rest : List GoString) (amount : Int)
    (hsp : splitComma r.payload = action :: field :: rest) (hat : Atoi field = (amount, none)) :
    h.Apply Hexdigest r ctx =
      if action = "bake".toList then
        (Result.returned (h.bake Hexdigest ctx amount r.signerPublicKey).1,
          (h.bake Hexdigest ctx amount r.signerPublicKey).2)
      else if action = "eat".toList then
        (Result.returned (h.eat Hexdigest ctx amount r.signerPublicKey).1,
          (h.eat Hexdigest ctx amount r.signerPublicKey).2)
      else if action = "clear".toList then
        (Result.returned (h.empty Hexdigest ctx r.signerPublicKey).1,
          (h.empty Hexdigest ctx r.signerPublicKey).2)
      else
        (Result.returned (some (Error.InvalidTransactionError
          (Msg.text ("Invalid Action: '".toList ++ action ++ "'".toList)))), ctx) := by
  unfold CookiejarHandler.Apply
  rw [hsp]
  simp only [hat]

theorem apply_unparsed (h : CookiejarHandler) (r : TpProcessRequest) (ctx : Context)
    (action field : GoString) (rest : List GoString) (amount : Int) (err : NumErr)
    (hsp : splitComma r.payload = action :: field :: rest)
    (hat : Atoi field = (amount, some err)) :
    h.Apply Hexdigest r ctx =
      (Result.returned (some (Error.InternalError
        (Msg.sprintf "Couldn't parse amount : %v".toList (Cause.numError field err)))), ctx) := by
  unfold CookiejarHandler.Apply
  rw [hsp]
  simp only [hat]

theorem apply_one_field (h : CookiejarHandler) (r : TpProcessRequest) (ctx : Context)
    (action : GoString) (hsp : splitComma r.payload = [action]) :
    h.Apply Hexdigest r ctx =
      (Result.panicked "index out of range [1] with length 1".toList, ctx) := by
  unfold CookiejarHandler.Apply
  rw [hsp]

theorem splitComma_ne_nil (s : GoString) : splitComma s ≠ [] := by
  cases s with
  | nil => simp [splitComma]
  | cons c cs =>
    unfold splitComma
    split
    · simp
    · split <;> simp

/-- What one `Apply` call can do to the state: nothing outside the signer's address, and
at that address nothing, or the write of `bake`, of `eat` or of `empty`; `bake` and `eat`
write only when the state read and the state write are answered regularly. -/
theorem apply_effect (h : CookiejarHandler) (r : TpProcessRequest) (ctx : Context) :
    (∀ a, a ≠ h.getAddress Hexdigest r.signerPublicKey →
        (h.Apply Hexdigest r ctx).2.state a = ctx.state a) ∧
    ((h.Apply Hexdigest r ctx).2.state (h.getAddress Hexdigest r.signerPublicKey)
        = ctx.state (h.getAddress Hexdigest r.signerPublicKey) ∨
      ∃ action field rest, splitComma r.payload = action :: field :: rest ∧
        (Atoi field).2 = none ∧
        ((action = "bake".toList ∧
          ctx.getFault = none ∧ ctx.setFault = none ∧ ctx.setDropped = false ∧
          (h.Apply Hexdigest r ctx).2.state (h.getAddress Hexdigest r.signerPublicKey)
            = some (Itoa (wrapInt
                (priorCount ctx (h.getAddress Hexdigest r.signerPublicKey) + (Atoi field).1)))) ∨
         (action = "eat".toList ∧
          ∃ c, ctx.state (h.getAddress Hexdigest r.signerPublicKey) = some c ∧
            (Atoi field).1 ≤ (Atoi c).1 ∧
            ctx.getFault = none ∧ ctx.setFault = none ∧ ctx.setDropped = false ∧
            (h.Apply Hexdigest r ctx).2.state (h.getAddress Hexdigest r.signerPublicKey)
              = some (Itoa (wrapInt ((Atoi c).1 - (Atoi field).1)))) ∨
         (action = "clear".toList ∧
          (h.Apply Hexdigest r ctx).2.state (h.getAddress Hexdigest r.signerPublicKey)
            = some (Itoa 0)))) ∧
    (∃ new, (h.Apply Hexdigest r ctx).2.calls = ctx.calls ++ new ∧
      ∀ c ∈ new, c.touchesOnly (h.getAddress Hexdigest r.signerPublicKey)) := by
  rcases hsp : splitComma r.payload with _ | ⟨action, _ | ⟨field, rest⟩⟩
  · exact absurd hsp (splitComma_ne_nil _)
  · rw [apply_one_field Hexdigest h r ctx action hsp]
    exact ⟨fun _ _ => rfl, Or.inl rfl, [], by simp⟩
  · rcases hat : Atoi field with ⟨amount, _ | err⟩
    · rw [apply_dispatch Hexdigest h r ctx action field rest amount hsp hat]
      by_cases hb : action = "bake".toList
      · rw [if_pos hb]
        obtain ⟨e1, e2, e3⟩ := bake_effect Hexdigest h ctx amount r.signerPublicKey
        refine ⟨e1, ?_, e3⟩
        rcases e2 with e2 | ⟨g1, g2, g3, e2⟩
        · exact Or.inl e2
        · exact Or.inr ⟨action, field, rest, rfl, by simp [hat],
            Or.inl ⟨hb, g1, g2, g3, by simpa [hat] using e2⟩⟩
      · rw [if_neg hb]
        by_cases he : action = "eat".toList
        · rw [if_pos he]
          obtain ⟨e1, e2, e3⟩ := eat_effect Hexdigest h ctx amount r.signerPublicKey
          refine ⟨e1, ?_, e3⟩
          rcases e2 with e2 | ⟨c, hc, hle, g1, g2, g3, e2⟩
          · exact Or.inl e2
          · exact Or.inr ⟨action, field, rest, rfl, by simp [hat],
              Or.inr (Or.inl ⟨he, c, hc, by simpa [hat] using hle, g1, g2, g3,
                by simpa [hat] using e2⟩)⟩
        · rw [if_neg he]
          by_cases hc : action = "clear".toList
          · rw [if_pos hc]
            obtain ⟨e1, e2, e3⟩ := empty_effect Hexdigest h ctx r.signerPublicKey
            refine ⟨e1, ?_, e3⟩
            rcases e2 with e2 | e2
            · exact Or.inl e2
            · exact Or.inr ⟨action, field, rest, rfl, by simp [hat], Or.inr (Or.inr ⟨hc, e2⟩)⟩
          · rw [if_neg hc]
            exact ⟨fun _ _ => rfl, Or.inl rfl, [], by simp⟩
    · rw [apply_unparsed Hexdigest h r ctx action field rest amount err hsp hat]
      exact ⟨fun _ _ => rfl, Or.inl rfl, [], by simp⟩

end HandlerLemmas

/-! ## Payload decoding -/

theorem splitComma_no_comma (s : GoString) (hs : ',' ∉ s) : splitComma s = [s] := by
  induction s with
  | nil => rfl
  | cons c cs ih =>
    have hc : c ≠ ',' := fun e => hs (by simp [e])
    have hcs : ',' ∉ cs := fun e => hs (by simp [e])
    simp [splitComma, hc, ih hcs]

theorem splitComma_two (action field : GoString) (ha : ',' ∉ action) (hf : ',' ∉ field) :
    splitComma (action ++ ',' :: field) = [action, field] := by
  induction action with
  | nil => simp [splitComma, splitComma_no_comma field hf]
  | cons c cs ih =>
    have hc : c ≠ ',' := fun e => ha (by simp [e])
    have hcs : ',' ∉ cs := fun e => ha (by simp [e])
    simp [splitComma, hc, ih hcs]

theorem formatLoop_digits (fuel u : Nat) (acc : GoString) :
    ∀ c ∈ formatLoop fuel u acc, c ∈ acc ∨ ∃ d, d < 10 ∧ c = Nat.digitChar d := by
  induction fuel generalizing u acc with
  | zero => intro c hc; exact Or.inl hc
  | succ k ih =>
    intro c hc
    rw [formatLoop] at hc
    split at hc
    · rename_i hu
      rcases List.mem_cons.mp hc with rfl | hc
      · exact Or.inr ⟨u, hu, rfl⟩
      · exact Or.inl hc
    · rcases ih _ _ c hc with hc | hc
      · rcases List.mem_cons.mp hc with rfl | hc
        · exact Or.inr ⟨u % 10, Nat.mod_lt _ (by decide), rfl⟩
        · exact Or.inl hc
      · exact Or.inr hc

theorem Itoa_no_comma (i : Int) : ',' ∉ Itoa i := by
  have key : ∀ u, ',' ∉ formatBits u := by
    intro u hmem
    rcases formatLoop_digits (u + 1) u [] _ hmem with hc | ⟨d, hd, hc⟩
    · simp at hc
    · have := digitChar_toNat d hd
      rw [← hc] at this
      simp at this
      omega
  unfold Itoa
  split
  · intro hmem
    rcases List.mem_cons.mp hmem with hc | hc
    · exact absurd hc (by decide)
    · exact key _ hc
  · exact key _

theorem parseUintLoop_append_error (xs ys : GoString) (n m : Nat) (e : NumErr)
    (h : parseUintLoop xs n = (m, some e)) :
    parseUintLoop (xs ++ ys) n = (m, some e) := by
  induction xs generalizing n with
  | nil => simp [parseUintLoop] at h
  | cons c cs ih =>
    simp only [parseUintLoop, List.cons_append] at h ⊢
    split at h
    · rename_i h1
      rw [if_pos h1]
      split at h
      · rename_i h2
        rw [if_pos h2]; exact h
      · rename_i h2
        rw [if_neg h2]
        split at h
        · rename_i h3
          rw [if_pos h3]; exact h
        · rename_i h3
          rw [if_neg h3]; exact ih _ h
    · rename_i h1
      rw [if_neg h1]; exact h

theorem parseUintLoop_formatLoop_overflow (fuel u : Nat) (hf : u < fuel) (hu : maxUint64 < u) :
    parseUintLoop (formatLoop fuel u []) 0 = (maxUint64, some NumErr.ErrRange) := by
  induction fuel generalizing u with
  | zero => omega
  | succ k ih =>
    have h10 : ¬ u < 10 := by unfold maxUint64 at hu; omega
    rw [formatLoop, if_neg h10, formatLoop_append]
    have hk : u / 10 < k := by omega
    by_cases hq : maxUint64 < u / 10
    · exact parseUintLoop_append_error _ _ _ _ _ (ih (u / 10) hk hq)
    · rw [parseUintLoop_append _ _ _ _ (parseUintLoop_formatLoop k (u / 10) hk (by omega))]
      have hd := digitChar_toNat (u % 10) (Nat.mod_lt _ (by decide))
      simp only [parseUintLoop, hd]
      simp only [cutoff64, maxUint64] at hu hq ⊢
      rw [if_pos (by omega)]
      by_cases hcut : 2 ^ 64 / 10 + 1 ≤ u / 10
      · rw [if_pos hcut]
      · rw [if_neg hcut, if_pos (by omega)]

theorem ParseUint_formatBits_overflow (u : Nat) (hu : maxUint64 < u) :
    ParseUint (formatBits u) = (maxUint64, some NumErr.ErrRange) := by
  obtain ⟨d, rest, _, hrest⟩ := formatLoop_head u u []
  have h := parseUintLoop_formatLoop_overflow (u + 1) u (by omega) hu
  unfold ParseUint formatBits
  rw [hrest] at h ⊢
  exact h

theorem Atoi_Itoa_below (i : Int) (hlo : i < minInt) :
    Atoi (Itoa i) = (minInt, some NumErr.ErrRange) := by
  have hlo' := hlo
  simp only [minInt] at hlo'
  have hneg : i < 0 := by omega
  unfold Atoi Itoa
  rw [if_pos hneg]
  by_cases hu : (-i).toNat ≤ maxUint64
  · simp only [ParseInt]
    simp [ParseUint_formatBits _ hu]
    omega
  · simp only [ParseInt]
    simp [ParseUint_formatBits_overflow _ (not_le.mp hu), maxUint64]

theorem ParseInt_range (s : GoString) : minInt ≤ (ParseInt s).1 ∧ (ParseInt s).1 ≤ maxInt := by
  cases s with
  | nil => simp [ParseInt, minInt, maxInt]
  | cons c cs =>
    simp only [ParseInt]
    generalize ParseUint (if c = '+' ∨ c = '-' then cs else c :: cs) = p
    rcases p with ⟨un, _ | _ | _⟩ <;> by_cases hc : c = '-' <;>
      simp [hc, minInt, maxInt] <;> split_ifs <;> simp <;> omega

theorem ParseInt_nonneg (c : Char) (cs : GoString) (hc : c ≠ '-') :
    0 ≤ (ParseInt (c :: cs)).1 := by
  simp only [ParseInt]
  generalize ParseUint (if c = '+' ∨ c = '-' then cs else c :: cs) = p
  rcases p with ⟨un, _ | _ | _⟩ <;>
    simp [hc, maxInt] <;> split_ifs <;> simp

/-! ## Claims about `bake`, `eat` and `empty` -/

section Claims
variable (Hexdigest : GoString → GoString)

set_option maxRecDepth 100000 in
/-- C1, counterexample: for the non-negative amounts 9223372036854775807 and 1 and a
signer without state entry, `bake` succeeds twice, but the entry it leaves is
"-9223372036854775808", not the decimal text of the sum 9223372036854775808. -/
theorem bake_twice_overflow :
    (0 : Int) ≤ 9223372036854775807 ∧ (0 : Int) ≤ 1 ∧
    freshContext.state (demoHandler.getAddress demoDigest demoKey) = none ∧
    (demoHandler.bake demoDigest freshContext 9223372036854775807 demoKey).1 = none ∧
    (demoHandler.bake demoDigest
      (demoHandler.bake demoDigest freshContext 9223372036854775807 demoKey).2 1 demoKey).1
        = none ∧
    (demoHandler.bake demoDigest
      (demoHandler.bake demoDigest freshContext 9223372036854775807 demoKey).2 1 demoKey).2.state
        (demoHandler.getAddress demoDigest demoKey) = some "-9223372036854775808".toList ∧
    (demoHandler.bake demoDigest
      (demoHandler.bake demoDigest freshContext 9223372036854775807 demoKey).2 1 demoKey).2.state
        (demoHandler.getAddress demoDigest demoKey) ≠ some (Itoa (9223372036854775807 + 1)) := by
  decide

/-- C1, amended: for non-negative `a` and `b` whose sum fits a Go `int`
(`a + b ≤ 2^63 - 1`) and a signer whose address has no state entry, with a context that
answers regularly, `bake a` and then `bake b` both return `nil`; the entry is the decimal
text of `a` after the first and of `a + b` after the second. -/
theorem bake_twice_adds (h : CookiejarHandler) (ctx : Context) (key : GoString) (a b : Int)
    (ha : 0 ≤ a) (hb : 0 ≤ b) (hab : a + b ≤ maxInt)
    (hfresh : ctx.state (h.getAddress Hexdigest key) = none) (hf : ctx.noFaults) :
    (h.bake Hexdigest ctx a key).1 = none ∧
    (h.bake Hexdigest ctx a key).2.state (h.getAddress Hexdigest key) = some (Itoa a) ∧
    (h.bake Hexdigest (h.bake Hexdigest ctx a key).2 b key).1 = none ∧
    (h.bake Hexdigest (h.bake Hexdigest ctx a key).2 b key).2.state (h.getAddress Hexdigest key)
      = some (Itoa (a + b)) := by
  have hmin : minInt ≤ 0 := by decide
  have ha' : a ≤ maxInt := by omega
  have h1 := bake_run Hexdigest h ctx a key hf
  have hp1 : priorCount ctx (h.getAddress Hexdigest key) = 0 := by simp [priorCount, hfresh]
  rw [hp1, zero_add, wrapInt_of_range a (by omega) ha'] at h1
  have hf2 : (h.bake Hexdigest ctx a key).2.noFaults := by
    rw [h1]; exact hf
  have h2 := bake_run Hexdigest h (h.bake Hexdigest ctx a key).2 b key hf2
  have hs1 : (h.bake Hexdigest ctx a key).2.state (h.getAddress Hexdigest key) = some (Itoa a) := by
    rw [h1]; simp
  have hp2 : priorCount (h.bake Hexdigest ctx a key).2 (h.getAddress Hexdigest key) = a := by
    simp [priorCount, hs1, Atoi_Itoa a (by omega) ha']
  rw [hp2, wrapInt_of_range (a + b) (by omega) hab] at h2
  refine ⟨by rw [h1], hs1, by rw [h2], ?_⟩
  rw [h2]; simp

/-- C1, amended, at concrete amounts: `bake 5` then `bake 3` on a fresh jar. -/
theorem bake_twice_adds_witness :
    (demoHandler.bake demoDigest freshContext 5 demoKey).1 = none ∧
    (demoHandler.bake demoDigest freshContext 5 demoKey).2.state
      (demoHandler.getAddress demoDigest demoKey) = some (Itoa 5) ∧
    (demoHandler.bake demoDigest (demoHandler.bake demoDigest freshContext 5 demoKey).2 3
      demoKey).1 = none ∧
    (demoHandler.bake demoDigest (demoHandler.bake demoDigest freshContext 5 demoKey).2 3
      demoKey).2.state (demoHandler.getAddress demoDigest demoKey) = some (Itoa (5 + 3)) :=
  bake_twice_adds demoDigest demoHandler freshContext demoKey 5 3 (by decide) (by decide)
    (by decide) (by decide) (by decide)

/-- C2: when the entry at the signer's address is the decimal text of `c` and `c < a`
(for Go ints `c` and `a`; in particular every `a ≥ 0`), and the state read is answered,
`eat a` returns the invalid-transaction error "Not enough of cookies in the jar"; the only
call made on the context is the state read, so nothing is written, no event is added and
the entry is still the text of `c`. -/
theorem eat_insufficient (h : CookiejarHandler) (ctx : Context) (key : GoString) (a c : Int)
    (hc : minInt ≤ c) (ha : a ≤ maxInt) (hca : c < a)
    (hjar : ctx.state (h.getAddress Hexdigest key) = some (Itoa c))
    (hg : ctx.getFault = none) :
    (h.eat Hexdigest ctx a key).1 = some (Error.InvalidTransactionError
      (Msg.text "Not enough of cookies in the jar".toList)) ∧
    (h.eat Hexdigest ctx a key).2.calls
      = ctx.calls ++ [Call.GetState [h.getAddress Hexdigest key]] ∧
    (h.eat Hexdigest ctx a key).2.state = ctx.state ∧
    (h.eat Hexdigest ctx a key).2.events = ctx.events ∧
    (h.eat Hexdigest ctx a key).2.state (h.getAddress Hexdigest key) = some (Itoa c) := by
  have hr := Atoi_Itoa c hc (by omega)
  have hne := Itoa_ne_nil c
  simp [CookiejarHandler.eat, Context.GetState, hg, hjar, hr, hca, hne]

/-- C2 at concrete values: `eat 20` on a jar holding "8". -/
theorem eat_insufficient_witness :
    (demoHandler.eat demoDigest
      (demoHandler.bake demoDigest freshContext 8 demoKey).2 20 demoKey).1
      = some (Error.InvalidTransactionError
          (Msg.text "Not enough of cookies in the jar".toList)) ∧
    (demoHandler.eat demoDigest
      (demoHandler.bake demoDigest freshContext 8 demoKey).2 20 demoKey).2.state
        (demoHandler.getAddress demoDigest demoKey) = some "8".toList :=
  have w := eat_insufficient demoDigest demoHandler
    (demoHandler.bake demoDigest freshContext 8 demoKey).2 demoKey 20 8
    (by decide) (by decide) (by decide) (by decide) (by decide)
  ⟨w.1, w.2.2.2.2⟩

/-- C3: when the entry at the signer's address is the decimal text of a Go int `c`,
`0 ≤ a ≤ c`, and the context answers regularly (in particular the state write reports the
address written), `eat a` returns `nil`, the entry becomes the decimal text of `c - a`, and
the event `cookiejar/eat` is added. -/
theorem eat_sufficient (h : CookiejarHandler) (ctx : Context) (key : GoString) (a c : Int)
    (ha : 0 ≤ a) (hac : a ≤ c) (hc : c ≤ maxInt)
    (hjar : ctx.state (h.getAddress Hexdigest key) = some (Itoa c))
    (hf : ctx.noFaults) :
    (h.eat Hexdigest ctx a key).1 = none ∧
    (h.eat Hexdigest ctx a key).2.state (h.getAddress Hexdigest key) = some (Itoa (c - a)) ∧
    (h.eat Hexdigest ctx a key).2.events = ctx.events ++ [eatEvent a] := by
  obtain ⟨h1, h2, h3, h4⟩ := hf
  have hmin : minInt ≤ 0 := by decide
  have hr := Atoi_Itoa c (by omega) hc
  have hw := wrapInt_of_range (c - a) (by omega) (by omega)
  have hlt : ¬ c < a := by omega
  have hne := Itoa_ne_nil c
  simp [CookiejarHandler.eat, Context.GetState, Context.SetState, Context.AddEvent,
    StateMap.assign, h1, h2, h3, h4, hjar, hr, hw, hlt, hne, lookup_single, eatEvent]

/-- C3 at concrete values: `eat 8` on a jar holding "8" leaves "0". -/
theorem eat_sufficient_witness :
    (demoHandler.eat demoDigest
      (demoHandler.bake demoDigest freshContext 8 demoKey).2 8 demoKey).1 = none ∧
    (demoHandler.eat demoDigest
      (demoHandler.bake demoDigest freshContext 8 demoKey).2 8 demoKey).2.state
        (demoHandler.getAddress demoDigest demoKey) = some (Itoa (8 - 8)) :=
  have w := eat_sufficient demoDigest demoHandler
    (demoHandler.bake demoDigest freshContext 8 demoKey).2 demoKey 8 8
    (by decide) (by decide) (by decide) (by decide) (by decide)
  ⟨w.1, w.2.1⟩

/-- The code on a zero-length entry: `GetState` does not report it, so `empty` treats the
address as having no jar, returns the internal error and writes nothing. -/
theorem clear_zero_length_entry (h : CookiejarHandler) (ctx : Context) (key : GoString)
    (hjar : ctx.state (h.getAddress Hexdigest key) = some [])
    (hg : ctx.getFault = none) :
    (h.empty Hexdigest ctx key).1
      = some (Error.InternalError (Msg.text "Invalid cookie jar".toList)) ∧
    (h.empty Hexdigest ctx key).2.state = ctx.state := by
  simp [CookiejarHandler.empty, Context.GetState, hg, hjar]

/-- C4: when the signer's address has a state entry, whatever its value (an entry being,
as for the SDK's `GetState`, data that is not zero-length), and the state read and write
are answered regularly, `empty` (the action `clear`) returns `nil`, sets the entry to "0",
and adds no event: its only calls are one state read and one state write. -/
theorem clear_existing (h : CookiejarHandler) (ctx : Context) (key v : GoString)
    (hjar : ctx.state (h.getAddress Hexdigest key) = some v) (hv : v ≠ [])
    (hg : ctx.getFault = none) (hs : ctx.setFault = none) (hd : ctx.setDropped = false) :
    (h.empty Hexdigest ctx key).1 = none ∧
    (h.empty Hexdigest ctx key).2.state (h.getAddress Hexdigest key) = some "0".toList ∧
    (h.empty Hexdigest ctx key).2.events = ctx.events ∧
    (h.empty Hexdigest ctx key).2.calls = ctx.calls ++
      [Call.GetState [h.getAddress Hexdigest key],
       Call.SetState [(h.getAddress Hexdigest key, "0".toList)]] := by
  have h0 : Itoa 0 = "0".toList := by decide
  simp [CookiejarHandler.empty, Context.GetState, Context.SetState,
    StateMap.assign, hg, hs, hd, hjar, hv, lookup_single, h0]

/-- C4 at concrete values: `empty` on a jar holding "8". -/
theorem clear_existing_witness :
    (demoHandler.empty demoDigest
      (demoHandler.bake demoDigest freshContext 8 demoKey).2 demoKey).1 = none ∧
    (demoHandler.empty demoDigest
      (demoHandler.bake demoDigest freshContext 8 demoKey).2 demoKey).2.state
        (demoHandler.getAddress demoDigest demoKey) = some "0".toList :=
  have w := clear_existing demoDigest demoHandler
    (demoHandler.bake demoDigest freshContext 8 demoKey).2 demoKey "8".toList
    (by decide) (by decide) (by decide) (by decide) (by decide)
  ⟨w.1, w.2.1⟩

/-- C5, counterexample: on a signer without state entry `eat 1` and `empty` return an
error, but it is `InternalError` with the text "Invalid cookie jar", not an
invalid-transaction error. -/
theorem missing_jar_not_invalid_transaction :
    freshContext.state (demoHandler.getAddress demoDigest demoKey) = none ∧
    (demoHandler.eat demoDigest freshContext 1 demoKey).1
      = some (Error.InternalError (Msg.text "Invalid cookie jar".toList)) ∧
    (demoHandler.empty demoDigest freshContext demoKey).1
      = some (Error.InternalError (Msg.text "Invalid cookie jar".toList)) ∧
    (¬ ∃ m, (demoHandler.eat demoDigest freshContext 1 demoKey).1
      = some (Error.InvalidTransactionError m)) ∧
    (¬ ∃ m, (demoHandler.empty demoDigest freshContext demoKey).1
      = some (Error.InvalidTransactionError m)) := by
  refine ⟨by decide, by decide, by decide, ?_, ?_⟩
  · rintro ⟨m, hm⟩
    have h1 : (demoHandler.eat demoDigest freshContext 1 demoKey).1
      = some (Error.InternalError (Msg.text "Invalid cookie jar".toList)) := by decide
    rw [h1] at hm
    cases hm
  · rintro ⟨m, hm⟩
    have h1 : (demoHandler.empty demoDigest freshContext demoKey).1
      = some (Error.InternalError (Msg.text "Invalid cookie jar".toList)) := by decide
    rw [h1] at hm
    cases hm

/-- C5, amended: when the signer's address has no state entry and the state read is
answered, `eat` (for any amount) and `empty` return the internal error "Invalid cookie jar";
their only call on the context is the state read, so nothing is written and no event is
added. -/
theorem missing_jar_internal_error (h : CookiejarHandler) (ctx : Context) (key : GoString)
    (amount : Int) (hjar : ctx.state (h.getAddress Hexdigest key) = none)
    (hg : ctx.getFault = none) :
    (h.eat Hexdigest ctx amount key).1
      = some (Error.InternalError (Msg.text "Invalid cookie jar".toList)) ∧
    (h.eat Hexdigest ctx amount key).2.calls
      = ctx.calls ++ [Call.GetState [h.getAddress Hexdigest key]] ∧
    (h.eat Hexdigest ctx amount key).2.state = ctx.state ∧
    (h.eat Hexdigest ctx amount key).2.events = ctx.events ∧
    (h.empty Hexdigest ctx key).1
      = some (Error.InternalError (Msg.text "Invalid cookie jar".toList)) ∧
    (h.empty Hexdigest ctx key).2.calls
      = ctx.calls ++ [Call.GetState [h.getAddress Hexdigest key]] ∧
    (h.empty Hexdigest ctx key).2.state = ctx.state ∧
    (h.empty Hexdigest ctx key).2.events = ctx.events := by
  simp [CookiejarHandler.eat, CookiejarHandler.empty, Context.GetState, hg, hjar]

/-- C5, amended, at a concrete input: `eat 1` and `empty` on a fresh context. -/
theorem missing_jar_internal_error_witness :
    (demoHandler.eat demoDigest freshContext 1 demoKey).1
      = some (Error.InternalError (Msg.text "Invalid cookie jar".toList)) ∧
    (demoHandler.empty demoDigest freshContext demoKey).2.calls
      = freshContext.calls ++ [Call.GetState [demoHandler.getAddress demoDigest demoKey]] :=
  have w := missing_jar_internal_error demoDigest demoHandler freshContext demoKey 1
    (by decide) (by decide)
  ⟨w.1, w.2.2.2.2.2.1⟩

end Claims

/-! ## Claims about `Apply` -/

section ApplyClaims
variable (Hexdigest : GoString → GoString)

set_option maxRecDepth 100000 in
/-- C6, counterexample: `Apply` on the payload "bake,-5" for a signer without state entry
does not fail: it returns `nil` after a state read, a state write and an event, and the
entry at the signer's address is then "-5". -/
theorem apply_negative_bake_accepted :
    (demoHandler.Apply demoDigest
      { signerPublicKey := demoKey, payload := "bake".toList ++ ',' :: Itoa (-5) }
      freshContext).1 = Result.returned none ∧
    (demoHandler.Apply demoDigest
      { signerPublicKey := demoKey, payload := "bake".toList ++ ',' :: Itoa (-5) }
      freshContext).2.calls =
        [Call.GetState [demoHandler.getAddress demoDigest demoKey],
         Call.SetState [(demoHandler.getAddress demoDigest demoKey, "-5".toList)],
         Call.AddEvent (bakeEvent (-5))] ∧
    (demoHandler.Apply demoDigest
      { signerPublicKey := demoKey, payload := "bake".toList ++ ',' :: Itoa (-5) }
      freshContext).2.state (demoHandler.getAddress demoDigest demoKey) = some "-5".toList ∧
    freshContext.state (demoHandler.getAddress demoDigest demoKey) = none := by
  decide

/-- C6, amended: for an action name without a comma and a negative amount `n`, `Apply` on
the payload "<action>,<n>" fails before any call on the context (the context is returned
as it was) in two cases only: with the internal error "Couldn't parse amount" when `n`
does not fit a Go int (`n < -2^63`), and with the invalid-transaction error
"Invalid Action" when `n` fits and the action is none of `bake`, `eat`, `clear`. For
`bake`, `eat` and `clear` with `-2^63 ≤ n < 0` the amount is accepted and the result is
that of `bake n`, `eat n`, `empty`. -/
theorem apply_negative_amount (h : CookiejarHandler) (ctx : Context) (key action : GoString)
    (n : Int) (hcomma : ',' ∉ action) (hneg : n < 0) :
    (n < minInt →
      h.Apply Hexdigest { signerPublicKey := key, payload := action ++ ',' :: Itoa n } ctx
        = (Result.returned (some (Error.InternalError
            (Msg.sprintf "Couldn't parse amount : %v".toList
              (Cause.numError (Itoa n) NumErr.ErrRange)))), ctx)) ∧
    (minInt ≤ n → action ≠ "bake".toList → action ≠ "eat".toList → action ≠ "clear".toList →
      h.Apply Hexdigest { signerPublicKey := key, payload := action ++ ',' :: Itoa n } ctx
        = (Result.returned (some (Error.InvalidTransactionError
            (Msg.text ("Invalid Action: '".toList ++ action ++ "'".toList)))), ctx)) ∧
    (minInt ≤ n → action = "bake".toList →
      h.Apply Hexdigest { signerPublicKey := key, payload := action ++ ',' :: Itoa n } ctx
        = (Result.returned (h.bake Hexdigest ctx n key).1, (h.bake Hexdigest ctx n key).2)) ∧
    (minInt ≤ n → action = "eat".toList →
      h.Apply Hexdigest { signerPublicKey := key, payload := action ++ ',' :: Itoa n } ctx
        = (Result.returned (h.eat Hexdigest ctx n key).1, (h.eat Hexdigest ctx n key).2)) ∧
    (minInt ≤ n → action = "clear".toList →
      h.Apply Hexdigest { signerPublicKey := key, payload := action ++ ',' :: Itoa n } ctx
        = (Result.returned (h.empty Hexdigest ctx key).1, (h.empty Hexdigest ctx key).2)) := by
  have hsp : splitComma
      ({ signerPublicKey := key, payload := action ++ ',' :: Itoa n } : TpProcessRequest).payload
        = action :: Itoa n :: [] := splitComma_two action (Itoa n) hcomma (Itoa_no_comma n)
  have hmax : n ≤ maxInt := by
    have : (0 : Int) ≤ maxInt := by decide
    omega
  refine ⟨fun hlo => ?_, fun hlo hb he hc => ?_, fun hlo hb => ?_, fun hlo he => ?_,
    fun hlo hc => ?_⟩
  · exact apply_unparsed Hexdigest h _ ctx action (Itoa n) [] minInt NumErr.ErrRange hsp
      (Atoi_Itoa_below n hlo)
  · rw [apply_dispatch Hexdigest h _ ctx action (Itoa n) [] n hsp (Atoi_Itoa n hlo hmax),
      if_neg hb, if_neg he, if_neg hc]
  · rw [apply_dispatch Hexdigest h _ ctx action (Itoa n) [] n hsp (Atoi_Itoa n hlo hmax),
      if_pos hb]
  · subst he
    rw [apply_dispatch Hexdigest h _ ctx _ (Itoa n) [] n hsp (Atoi_Itoa n hlo hmax),
      if_neg (by decide), if_pos rfl]
  · subst hc
    rw [apply_dispatch Hexdigest h _ ctx _ (Itoa n) [] n hsp (Atoi_Itoa n hlo hmax),
      if_neg (by decide), if_neg (by decide), if_pos rfl]

/-- C6, amended, at a concrete input: the action "bake" with the amount -5. -/
theorem apply_negative_amount_witness :
    demoHandler.Apply demoDigest
      { signerPublicKey := demoKey, payload := "bake".toList ++ ',' :: Itoa (-5) } freshContext
      = (Result.returned (demoHandler.bake demoDigest freshContext (-5) demoKey).1,
          (demoHandler.bake demoDigest freshContext (-5) demoKey).2) :=
  (apply_negative_amount demoDigest demoHandler freshContext demoKey "bake".toList (-5)
    (by decide) (by decide)).2.2.1 (by decide) rfl

set_option maxRecDepth 100000 in
/-- C7, the code at the failing inputs: on the one-field payload "bake" `Apply` returns no
result, it panics reading field 1 of a list of length 1 (and so does "clear"); on the
three-field payload "bake,1,2" it returns `nil` and stores "1". -/
theorem apply_field_count :
    demoHandler.Apply demoDigest { signerPublicKey := demoKey, payload := "bake".toList }
      freshContext
      = (Result.panicked "index out of range [1] with length 1".toList, freshContext) ∧
    demoHandler.Apply demoDigest { signerPublicKey := demoKey, payload := "clear".toList }
      freshContext
      = (Result.panicked "index out of range [1] with length 1".toList, freshContext) ∧
    (demoHandler.Apply demoDigest { signerPublicKey := demoKey, payload := "bake,1,2".toList }
      freshContext).1 = Result.returned none ∧
    (demoHandler.Apply demoDigest { signerPublicKey := demoKey, payload := "bake,1,2".toList }
      freshContext).2.state (demoHandler.getAddress demoDigest demoKey) = some "1".toList := by
  refine ⟨?_, ?_, by decide, by decide⟩
  · exact apply_one_field demoDigest demoHandler _ freshContext "bake".toList (by decide)
  · exact apply_one_field demoDigest demoHandler _ freshContext "clear".toList (by decide)

end ApplyClaims

/-! ## The count invariant and the frame of `Apply` -/

theorem Itoa_nat_head (n : Nat) :
    ∃ d rest, d < 10 ∧ Itoa (n : Int) = Nat.digitChar d :: rest := by
  have hn : ¬ (n : Int) < 0 := by omega
  unfold Itoa formatBits
  rw [if_neg hn]
  exact formatLoop_head _ _ _

theorem digitChar_ne_minus (d : Nat) (hd : d < 10) : Nat.digitChar d ≠ '-' := by
  intro hc
  have := digitChar_toNat d hd
  rw [hc] at this
  simp at this
  omega

theorem isCount_of_range (x : Int) (h0 : 0 ≤ x) : IsCount (Itoa x) :=
  ⟨x.toNat, by rw [Int.toNat_of_nonneg h0]⟩

theorem Atoi_nonneg_of_isCount (v : GoString) (hv : IsCount v) : 0 ≤ (Atoi v).1 := by
  obtain ⟨n, rfl⟩ := hv
  obtain ⟨d, rest, hd, hrest⟩ := Itoa_nat_head n
  rw [hrest]
  exact ParseInt_nonneg _ _ (digitChar_ne_minus d hd)

theorem not_isCount_minus (rest : GoString) : ¬ IsCount ('-' :: rest) := by
  rintro ⟨n, hn⟩
  obtain ⟨d, rest1, hd, hrest⟩ := Itoa_nat_head n
  rw [hrest] at hn
  exact digitChar_ne_minus d hd (List.cons.inj hn).1.symm

section InvariantClaims
variable (Hexdigest : GoString → GoString)

set_option maxRecDepth 100000 in
/-- C8, counterexample: in the fresh context every present entry encodes a non-negative
integer (there is none), and after `Apply` on the payload "bake,-5" the entry at the
signer's address is "-5", which encodes no non-negative integer. -/
theorem count_invariant_broken :
    (∀ a v, freshContext.state a = some v → IsCount v) ∧
    (demoHandler.Apply demoDigest { signerPublicKey := demoKey, payload := "bake,-5".toList }
      freshContext).2.state (demoHandler.getAddress demoDigest demoKey) = some "-5".toList ∧
    ¬ IsCount "-5".toList := by
  refine ⟨?_, by decide, not_isCount_minus _⟩
  intro a v hv
  simp [freshContext] at hv

/-- C8, amended: starting from a state in which every present entry is the decimal
encoding of a non-negative integer, every `Apply` call (any action, success or failure)
keeps that property, provided the count it writes stays within `0 .. 2^63 - 1`: when the
payload is a `bake` whose amount parses and the state read and write are answered
regularly, the prior count plus the amount lies in that range; when it is an `eat` whose
amount parses and does not exceed the count of the existing jar, with the read and write
answered regularly, the count minus the amount does not exceed `2^63 - 1`. Nothing is asked
of `clear`, of unknown actions, of amounts that do not parse, or of calls whose read or
write fails. -/
theorem count_invariant_preserved (h : CookiejarHandler) (r : TpProcessRequest) (ctx : Context)
    (hinv : ∀ a v, ctx.state a = some v → IsCount v)
    (hbake : ∀ field rest, splitComma r.payload = "bake".toList :: field :: rest →
      (Atoi field).2 = none →
      ctx.getFault = none → ctx.setFault = none → ctx.setDropped = false →
      0 ≤ priorCount ctx (h.getAddress Hexdigest r.signerPublicKey) + (Atoi field).1 ∧
      priorCount ctx (h.getAddress Hexdigest r.signerPublicKey) + (Atoi field).1 ≤ maxInt)
    (heat : ∀ field rest c, splitComma r.payload = "eat".toList :: field :: rest →
      (Atoi field).2 = none →
      ctx.getFault = none → ctx.setFault = none → ctx.setDropped = false →
      ctx.state (h.getAddress Hexdigest r.signerPublicKey) = some c →
      (Atoi field).1 ≤ (Atoi c).1 →
      (Atoi c).1 - (Atoi field).1 ≤ maxInt) :
    ∀ a v, (h.Apply Hexdigest r ctx).2.state a = some v → IsCount v := by
  intro a v hv
  obtain ⟨hframe, hat, _⟩ := apply_effect Hexdigest h r ctx
  have hmin : minInt ≤ 0 := by decide
  by_cases ha : a = h.getAddress Hexdigest r.signerPublicKey
  · subst ha
    rcases hat with hsame | ⟨action, field, rest, hsp, hparsed, hcase⟩
    · rw [hsame] at hv
      exact hinv _ v hv
    · rcases hcase with ⟨hb, g1, g2, g3, hw⟩ | ⟨he, c, hc, hle, g1, g2, g3, hw⟩ | ⟨_, hw⟩
      · subst hb
        obtain ⟨hlo, hhi⟩ := hbake field rest hsp hparsed g1 g2 g3
        rw [hw, wrapInt_of_range _ (by omega) hhi] at hv
        rw [← Option.some.inj hv]
        exact isCount_of_range _ hlo
      · subst he
        have hhi := heat field rest c hsp hparsed g1 g2 g3 hc hle
        rw [hw, wrapInt_of_range _ (by omega) hhi] at hv
        rw [← Option.some.inj hv]
        exact isCount_of_range _ (by omega)
      · rw [hw] at hv
        rw [← Option.some.inj hv]
        exact isCount_of_range 0 (le_refl 0)
  · rw [hframe a ha] at hv
    exact hinv a v hv

set_option maxRecDepth 100000 in
/-- C8, amended, at a concrete input: `Apply` on "bake,-3" for a jar holding "5" leaves
the entry "2", the decimal encoding of a non-negative integer. -/
theorem count_invariant_preserved_witness :
    (jarContext "5".toList).state (demoHandler.getAddress demoDigest demoKey)
      = some "5".toList ∧
    (demoHandler.Apply demoDigest { signerPublicKey := demoKey, payload := "bake,-3".toList }
      (jarContext "5".toList)).2.state (demoHandler.getAddress demoDigest demoKey)
      = some "2".toList ∧
    IsCount "2".toList :=
  ⟨by decide, by decide,
    count_invariant_preserved demoDigest demoHandler
      { signerPublicKey := demoKey, payload := "bake,-3".toList } (jarContext "5".toList)
      (fun a v hv => by
        simp only [jarContext] at hv
        split at hv
        · rw [← Option.some.inj hv]
          exact ⟨5, by decide⟩
        · cases hv)
      (fun field rest hsp _ _ _ _ => by
        have hs : splitComma "bake,-3".toList = ["bake".toList, "-3".toList] := by decide
        change splitComma "bake,-3".toList = "bake".toList :: field :: rest at hsp
        rw [hs] at hsp
        obtain ⟨hf, _⟩ : "-3".toList = field ∧ [] = rest := by simpa using hsp
        subst hf
        exact ⟨by decide, by decide⟩)
      (fun field rest c hsp _ _ _ _ _ _ => by
        have hs : splitComma "bake,-3".toList = ["bake".toList, "-3".toList] := by decide
        change splitComma "bake,-3".toList = "eat".toList :: field :: rest at hsp
        rw [hs] at hsp
        exact absurd (List.cons.inj hsp).1 (by decide))
      (demoHandler.getAddress demoDigest demoKey) "2".toList (by decide)⟩

/-- C9: in every `Apply` call (any payload, any prior state, any answer of the context)
each state read asks for exactly the address derived from the signer's public key, each
state write writes exactly that address, and the entry at every other address is the same
afterwards. -/
theorem apply_touches_own_address_only (h : CookiejarHandler) (r : TpProcessRequest)
    (ctx : Context) :
    (∃ new, (h.Apply Hexdigest r ctx).2.calls = ctx.calls ++ new ∧
      ∀ c ∈ new, c.touchesOnly (h.getAddress Hexdigest r.signerPublicKey)) ∧
    (∀ a, a ≠ h.getAddress Hexdigest r.signerPublicKey →
      (h.Apply Hexdigest r ctx).2.state a = ctx.state a) :=
  ⟨(apply_effect Hexdigest h r ctx).2.2, (apply_effect Hexdigest h r ctx).1⟩

end InvariantClaims

/-! ## The conditions of the count invariant are needed -/

section Needed
variable (Hexdigest : GoString → GoString)

theorem bake_written (h : CookiejarHandler) (ctx : Context) (amount : Int) (key : GoString)
    (h1 : ctx.getFault = none) (h2 : ctx.setFault = none) (h3 : ctx.setDropped = false) :
    (h.bake Hexdigest ctx amount key).2.state (h.getAddress Hexdigest key)
      = some (Itoa (wrapInt (priorCount ctx (h.getAddress Hexdigest key) + amount))) := by
  rcases hs : ctx.state (h.getAddress Hexdigest key) with _ | v
  · cases h4 : ctx.eventFault <;>
      simp [CookiejarHandler.bake, Context.GetState, Context.SetState, Context.AddEvent,
        StateMap.assign, h1, h2, h3, h4, hs, lookup_single, priorCount]
  · cases v <;> cases h4 : ctx.eventFault <;>
      simp [CookiejarHandler.bake, Context.GetState, Context.SetState, Context.AddEvent,
        StateMap.assign, h1, h2, h3, h4, hs, lookup_single, priorCount, Atoi_nil]

theorem eat_written (h : CookiejarHandler) (ctx : Context) (amount : Int) (key c : GoString)
    (h1 : ctx.getFault = none) (h2 : ctx.setFault = none) (h3 : ctx.setDropped = false)
    (hs : ctx.state (h.getAddress Hexdigest key) = some c) (hc : c ≠ [])
    (hle : amount ≤ (Atoi c).1) :
    (h.eat Hexdigest ctx amount key).2.state (h.getAddress Hexdigest key)
      = some (Itoa (wrapInt ((Atoi c).1 - amount))) := by
  have hlt : ¬ (Atoi c).1 < amount := not_lt.mpr hle
  cases h4 : ctx.eventFault <;>
    simp [CookiejarHandler.eat, Context.GetState, Context.SetState, Context.AddEvent,
      StateMap.assign, h1, h2, h3, h4, hs, hc, hlt, lookup_single]

theorem isCount_ne_nil (v : GoString) (hv : IsCount v) : v ≠ [] := by
  obtain ⟨n, rfl⟩ := hv
  exact Itoa_ne_nil _

theorem not_isCount_Itoa_neg (x : Int) (hx : x < 0) : ¬ IsCount (Itoa x) := by
  unfold Itoa
  rw [if_pos hx]
  exact not_isCount_minus _

/-- The two conditions of `count_invariant_preserved` are needed: from a state whose
entries encode non-negative integers, a `bake` or an `eat` that meets the premises of a
condition and misses its bound leaves an entry that encodes no non-negative integer. -/
theorem count_invariant_conditions_needed (h : CookiejarHandler) (r : TpProcessRequest)
    (ctx : Context) (hinv : ∀ a v, ctx.state a = some v → IsCount v) :
    (∀ field rest, splitComma r.payload = "bake".toList :: field :: rest →
      (Atoi field).2 = none →
      ctx.getFault = none → ctx.setFault = none → ctx.setDropped = false →
      ¬ (0 ≤ priorCount ctx (h.getAddress Hexdigest r.signerPublicKey) + (Atoi field).1 ∧
        priorCount ctx (h.getAddress Hexdigest r.signerPublicKey) + (Atoi field).1 ≤ maxInt) →
      ∃ v, (h.Apply Hexdigest r ctx).2.state (h.getAddress Hexdigest r.signerPublicKey) = some v ∧
        ¬ IsCount v) ∧
    (∀ field rest c, splitComma r.payload = "eat".toList :: field :: rest →
      (Atoi field).2 = none →
      ctx.getFault = none → ctx.setFault = none → ctx.setDropped = false →
      ctx.state (h.getAddress Hexdigest r.signerPublicKey) = some c →
      (Atoi field).1 ≤ (Atoi c).1 →
      ¬ ((Atoi c).1 - (Atoi field).1 ≤ maxInt) →
      ∃ v, (h.Apply Hexdigest r ctx).2.state (h.getAddress Hexdigest r.signerPublicKey) = some v ∧
        ¬ IsCount v) := by
  constructor
  · intro field rest hsp hparsed g1 g2 g3 hout
    have hat : Atoi field = ((Atoi field).1, none) := by rw [← hparsed]
    rw [apply_dispatch Hexdigest h r ctx _ field rest _ hsp hat, if_pos rfl]
    refine ⟨_, bake_written Hexdigest h ctx _ _ g1 g2 g3, ?_⟩
    have hprior : 0 ≤ priorCount ctx (h.getAddress Hexdigest r.signerPublicKey) ∧
        priorCount ctx (h.getAddress Hexdigest r.signerPublicKey) ≤ maxInt := by
      unfold priorCount
      cases hs : ctx.state (h.getAddress Hexdigest r.signerPublicKey) with
      | none => exact ⟨le_refl 0, by decide⟩
      | some c => exact ⟨Atoi_nonneg_of_isCount c (hinv _ c hs), (ParseInt_range c).2⟩
    have hamt := ParseInt_range field
    change minInt ≤ (Atoi field).1 ∧ (Atoi field).1 ≤ maxInt at hamt
    apply not_isCount_Itoa_neg
    simp only [minInt, maxInt] at hprior hamt hout
    unfold wrapInt
    omega
  · intro field rest c hsp hparsed g1 g2 g3 hc hle hout
    have hat : Atoi field = ((Atoi field).1, none) := by rw [← hparsed]
    rw [apply_dispatch Hexdigest h r ctx _ field rest _ hsp hat, if_neg (by decide), if_pos rfl]
    refine ⟨_, eat_written Hexdigest h ctx _ _ c g1 g2 g3 hc
      (isCount_ne_nil c (hinv _ c hc)) hle, ?_⟩
    have hcnt := ParseInt_range c
    change minInt ≤ (Atoi c).1 ∧ (Atoi c).1 ≤ maxInt at hcnt
    have hamt := ParseInt_range field
    change minInt ≤ (Atoi field).1 ∧ (Atoi field).1 ≤ maxInt at hamt
    apply not_isCount_Itoa_neg
    simp only [minInt, maxInt] at hcnt hamt hout
    unfold wrapInt
    omega

end Needed

/-! ## Polling for the status of a batch -/

theorem getStatus_statusReply (c : CookiejarClient) (batchID : GoString) (wait : Nat)
    (id status : GoString) (rest : Gateway) :
    c.getStatus batchID wait (statusReply id status :: rest) = (Outcome.value status, rest) := by
  simp [CookiejarClient.getStatus, CookiejarClient.sendRequest, CookiejarClient.getData,
    statusReply, statusOf, List.lookup]

theorem pollLoop_pending (c : CookiejarClient) (batchID : GoString) (timeout : Nat)
    (ht : 0 < timeout) (id s : GoString) (hs : s ≠ "PENDING".toList) (k fuel : Nat)
    (hfuel : k < fuel) :
    pollLoop c batchID timeout fuel "PENDING".toList
      (List.replicate k (statusReply id "PENDING".toList) ++ [statusReply id s])
      = (Outcome.value s, []) := by
  have hs1 : ¬ s = ['P', 'E', 'N', 'D', 'I', 'N', 'G'] := hs
  induction k generalizing fuel with
  | zero =>
    obtain ⟨f, rfl⟩ : ∃ f, fuel = f + 1 := ⟨fuel - 1, by omega⟩
    rw [List.replicate, List.nil_append, pollLoop, if_pos ⟨ht, rfl⟩, getStatus_statusReply]
    cases f <;> simp [pollLoop, hs1]
  | succ k ih =>
    obtain ⟨f, rfl⟩ : ∃ f, fuel = f + 1 := ⟨fuel - 1, by omega⟩
    rw [List.replicate, List.cons_append, pollLoop, if_pos ⟨ht, rfl⟩, getStatus_statusReply]
    exact ih f (by omega)

/-- C10, what the code does on every such sequence: after one or more PENDING responses
followed by a response with the terminal status `s`, with a positive timeout, the call
resolves with the map of the first response, whose status is PENDING, and not with `s`. -/
theorem waitForStatus_keeps_first_response (c : CookiejarClient) (batchID : GoString)
    (timeout : Nat) (ht : 0 < timeout) (s : GoString) (hs : s ≠ "PENDING".toList) (k : Nat) :
    c.waitForStatus batchID timeout
      (List.replicate (k + 1) (statusReply batchID "PENDING".toList) ++ [statusReply batchID s])
      = (Outcome.value
          [("id".toList, Field.str batchID), ("status".toList, Field.str "PENDING".toList)],
         []) ∧
    statusOf [("id".toList, Field.str batchID), ("status".toList, Field.str "PENDING".toList)]
      = Outcome.value "PENDING".toList := by
  refine ⟨?_, by simp [statusOf, List.lookup]⟩
  have hp := pollLoop_pending c batchID timeout ht batchID s hs k (k + 1) (by omega)
  have ht0 : timeout ≠ 0 := by omega
  have hlen : (List.replicate k (statusReply batchID "PENDING".toList)
      ++ [statusReply batchID s]).length = k + 1 := by simp
  rw [CookiejarClient.waitForStatus, if_neg ht0, List.replicate, List.cons_append]
  have hsend : ∀ suffix ct rest, c.sendRequest suffix ct []
      (statusReply batchID "PENDING".toList :: rest)
      = (Outcome.value (Body.document (DataEntry.items
          [Item.mapping [("id".toList, Field.str batchID),
            ("status".toList, Field.str "PENDING".toList)]])), rest) := by
    intro suffix ct rest
    simp [CookiejarClient.sendRequest, statusReply]
  have hstat : statusOf
      [("id".toList, Field.str batchID), ("status".toList, Field.str "PENDING".toList)]
      = Outcome.value "PENDING".toList := by simp [statusOf, List.lookup]
  simp only [hsend, CookiejarClient.getData, List.get?, hstat, hlen, hp]

set_option maxRecDepth 100000 in
/-- C10 at the failing input: the responses PENDING, COMMITTED with timeout 10. -/
theorem waitForStatus_keeps_first_response_witness :
    demoClient.waitForStatus "b1".toList 10
      [statusReply "b1".toList "PENDING".toList, statusReply "b1".toList "COMMITTED".toList]
      = (Outcome.value
          [("id".toList, Field.str "b1".toList), ("status".toList, Field.str "PENDING".toList)],
         []) :=
  (waitForStatus_keeps_first_response demoClient "b1".toList 10 (by decide)
    "COMMITTED".toList (by decide) 0).1

/-! ## The transport step: classifying the status -/

/-- The code at status 404: `sendRequest` does not return the "Not found" error, it
panics on `err.Error()` with `err` being `nil`. -/
theorem sendRequest_not_found_panics (c : CookiejarClient) (suffix contentType data : GoString)
    (status : GoString) (body : Except GoString Body) (rest : Gateway) :
    c.sendRequest suffix contentType data (Reply.response 404 status body :: rest)
      = (Outcome.panicked nilDereference, rest) := by
  simp [CookiejarClient.sendRequest]

/-- C11, counterexample: the status 304 is outside 200..299, and `sendRequest` returns the
body of the response without any error. -/
theorem sendRequest_returns_body_on_304 :
    ¬ (200 ≤ 304 ∧ 304 ≤ 299) ∧
    demoClient.sendRequest "batches".toList "application/octet-stream".toList "x".toList
      [Reply.response 304 "304 Not Modified".toList (Except.ok (Body.document DataEntry.absent))]
      = (Outcome.value (Body.document DataEntry.absent), []) := by
  refine ⟨by decide, ?_⟩
  simp [CookiejarClient.sendRequest]

/-- C11, amended: for every response whose status code is 400 or above and is not 404,
`sendRequest` returns the error "Error <code>: <status>" carrying the status code, and no
body; for every status code below 400 (the 2xx codes and also the others below 400) it
returns the body without error when the body can be read and the error
"Error reading response" when it cannot; for no status code other than 404 does it panic. -/
theorem sendRequest_classifies_status (c : CookiejarClient)
    (suffix contentType data : GoString) (code : Nat) (status : GoString)
    (body : Except GoString Body) (rest : Gateway) (h404 : code ≠ 404) :
    (400 ≤ code →
      c.sendRequest suffix contentType data (Reply.response code status body :: rest)
        = (Outcome.failed (ClientError.httpStatus code status), rest)) ∧
    (code < 400 → ∀ b, body = Except.ok b →
      c.sendRequest suffix contentType data (Reply.response code status body :: rest)
        = (Outcome.value b, rest)) ∧
    (code < 400 → ∀ e, body = Except.error e →
      c.sendRequest suffix contentType data (Reply.response code status body :: rest)
        = (Outcome.failed (ClientError.readingResponse e), rest)) ∧
    (∀ p, (c.sendRequest suffix contentType data
        (Reply.response code status body :: rest)).1 ≠ Outcome.panicked p) := by
  refine ⟨fun h => ?_, fun h b hb => ?_, fun h e he => ?_, fun p => ?_⟩
  · simp [CookiejarClient.sendRequest, h404, h]
  · subst hb
    simp [CookiejarClient.sendRequest, h404, Nat.not_le.mpr h]
  · subst he
    simp [CookiejarClient.sendRequest, h404, Nat.not_le.mpr h]
  · by_cases h : 400 ≤ code
    · simp [CookiejarClient.sendRequest, h404, h]
    · cases body <;> simp [CookiejarClient.sendRequest, h404, h]

/-- C11, amended, at concrete inputs: the status 500 gives the error carrying 500, the
status 200 gives the body. -/
theorem sendRequest_classifies_status_witness :
    demoClient.sendRequest "batches".toList "application/octet-stream".toList "x".toList
      [Reply.response 500 "500 Internal Server Error".toList
        (Except.ok (Body.document DataEntry.absent))]
      = (Outcome.failed (ClientError.httpStatus 500 "500 Internal Server Error".toList), []) ∧
    demoClient.sendRequest "batches".toList "application/octet-stream".toList "x".toList
      [Reply.response 200 "200 OK".toList (Except.ok (Body.document DataEntry.absent))]
      = (Outcome.value (Body.document DataEntry.absent), []) :=
  ⟨(sendRequest_classifies_status demoClient "batches".toList
      "application/octet-stream".toList "x".toList 500 "500 Internal Server Error".toList
      (Except.ok (Body.document DataEntry.absent)) [] (by decide)).1 (by decide),
   (sendRequest_classifies_status demoClient "batches".toList
      "application/octet-stream".toList "x".toList 200 "200 OK".toList
      (Except.ok (Body.document DataEntry.absent)) [] (by decide)).2.1 (by decide) _ rfl⟩

/-! ## The address declared by the client and the address derived by the handler -/

theorem hexDemoDigest_length (name : GoString) : (hexDemoDigest name).length = 128 := by
  simp [hexDemoDigest, List.length_take]

theorem hexDemoDigest_hex (name : GoString) : ∀ ch ∈ hexDemoDigest name, ch ∈ hexChars := by
  intro ch hch
  have hmem := List.mem_of_mem_take hch
  rcases List.mem_append.mp hmem with h | h
  · simpa using (List.mem_filter.mp h).2
  · rw [(List.mem_replicate.mp h).2]
    decide

/-- C12: for a digest function whose texts have 128 lower-case hexadecimal characters (as
those of SHA-512 have), used by client and handler alike, the header that `wrapAndSend`
builds declares as `Inputs` and as `Outputs` the one address `getAddress()` of the client,
and that address equals the address that the handler made by `NewCookiejarHandler` derives
from the header's signer public key; both are the first 6 characters of the digest of
"cookiejar" followed by the first 64 characters of the digest of the key: 70 hexadecimal
characters. Both being functions, a repeated call gives the same value. -/
theorem client_address_eq_handler_address (hexdigest : GoString → GoString)
    (hlen : ∀ s, (hexdigest s).length = 128)
    (hhex : ∀ s, ∀ ch ∈ hexdigest s, ch ∈ hexChars)
    (c : CookiejarClient) (action : GoString) (amount nonce : Int) :
    (c.rawTransactionsHeader hexdigest action amount nonce).Inputs = [c.getAddress hexdigest] ∧
    (c.rawTransactionsHeader hexdigest action amount nonce).Outputs = [c.getAddress hexdigest] ∧
    c.getAddress hexdigest
      = (NewCookiejarHandler hexdigest).getAddress hexdigest
          (c.rawTransactionsHeader hexdigest action amount nonce).SignerPublicKey ∧
    c.getAddress hexdigest
      = (hexdigest "cookiejar".toList).take 6 ++ (hexdigest c.publicKey).take 64 ∧
    (NewCookiejarHandler hexdigest).getAddress hexdigest c.publicKey
      = (hexdigest "cookiejar".toList).take 6 ++ (hexdigest c.publicKey).take 64 ∧
    ((hexdigest "cookiejar".toList).take 6).length = 6 ∧
    ((hexdigest c.publicKey).take 64).length = 64 ∧
    (c.getAddress hexdigest).length = 70 ∧
    (∀ ch ∈ c.getAddress hexdigest, ch ∈ hexChars) := by
  have h6 : ((hexdigest "cookiejar".toList).take 6).length = 6 := by
    rw [List.length_take, hlen]; rfl
  have h64 : ((hexdigest c.publicKey).take 64).length = 64 := by
    rw [List.length_take, hlen]; rfl
  have haddr : c.getAddress hexdigest
      = (hexdigest "cookiejar".toList).take 6 ++ (hexdigest c.publicKey).take 64 := rfl
  refine ⟨rfl, rfl, rfl, haddr, rfl, h6, h64, ?_, ?_⟩
  · rw [haddr, List.length_append, h6, h64]
  · intro ch hch
    rw [haddr] at hch
    rcases List.mem_append.mp hch with h | h
    · exact hhex _ ch (List.mem_of_mem_take h)
    · exact hhex _ ch (List.mem_of_mem_take h)

/-- C12 at a concrete input: the client with the public key "02ab". -/
theorem client_address_eq_handler_address_witness :
    demoClient.getAddress hexDemoDigest
      = (NewCookiejarHandler hexDemoDigest).getAddress hexDemoDigest demoKey ∧
    (demoClient.getAddress hexDemoDigest).length = 70 :=
  have w := client_address_eq_handler_address hexDemoDigest hexDemoDigest_length
    hexDemoDigest_hex demoClient "bake".toList 5 1
  ⟨w.2.2.1, w.2.2.2.2.2.2.2.1⟩

end Cookiejar
